import Mathlib

/-!
Shallow embedding of the noirotm/chip8 CHIP-8 emulator core
(crates `chip8-system` and `c8asm`) used to settle the spec claims.

Conventions:
* Rust `u8` / `u16` values are `Nat` with explicit `% 256` / `% 65536`
  wherever the source wraps; register indices (`VReg`) are `Fin 16`.
* The register bank `[u8; 16]` is `Fin 16 → Nat`; sequential Rust
  assignments become sequenced `Function.update`s, so a later statement
  reads the value written by an earlier one, exactly as in the source.
* The call stack `Vec<u16>` is a `List Nat` with the HEAD as the top of
  the stack (Rust pushes/pops at the vector's tail).
* `execute_next_inst` returns `System × Option SystemError`: Rust
  mutates `self` and returns `Result<(), SystemError>`; every error
  path in the source returns before mutating, so on error the state
  component is the unchanged input state.
-/

namespace Chip8

/-! ### opcode.rs -/

inductive Instr where
  | ClearDisplay
  | Return
  | Jump (nnn : Nat)
  | Call (nnn : Nat)
  | SkipEqImm (x : Fin 16) (kk : Nat)
  | SkipNotEqImm (x : Fin 16) (kk : Nat)
  | SkipEqReg (x y : Fin 16)
  | LoadImm (x : Fin 16) (kk : Nat)
  | AddImm (x : Fin 16) (kk : Nat)
  | LoadReg (x y : Fin 16)
  | OrReg (x y : Fin 16)
  | AndReg (x y : Fin 16)
  | XorReg (x y : Fin 16)
  | AddReg (x y : Fin 16)
  | SubReg (x y : Fin 16)
  | ShiftRight (x y : Fin 16)
  | SubN (x y : Fin 16)
  | ShiftLeft (x y : Fin 16)
  | SkipNotEqReg (x y : Fin 16)
  | LoadI (nnn : Nat)
  | JumpV0 (nnn : Nat)
  | Random (x : Fin 16) (kk : Nat)
  | Draw (x y : Fin 16) (n : Nat)
  | SkipKeyPressed (x : Fin 16)
  | SkipKeyNotPressed (x : Fin 16)
  | LoadDelayTimer (x : Fin 16)
  | WaitKeyPress (x : Fin 16)
  | SetDelayTimer (x : Fin 16)
  | SetSoundTimer (x : Fin 16)
  | AddI (x : Fin 16)
  | LoadSprite (x : Fin 16)
  | LoadBCD (x : Fin 16)
  | SaveRegs (x : Fin 16)
  | LoadRegs (x : Fin 16)
  deriving DecidableEq

/-- `fn nnn(opcode: u16) -> u16 { opcode & 0xFFF }` -/
def nnn (opcode : Nat) : Nat := opcode &&& 0xFFF

/-- `fn x(opcode: u16) -> VReg { VReg::from_u16((opcode >> 8) & 0x0F).unwrap() }`
(the `unwrap` always succeeds because the value is masked to a nibble). -/
def x (opcode : Nat) : Fin 16 :=
  ⟨(opcode >>> 8) &&& 0x0F, Nat.lt_succ_of_le Nat.and_le_right⟩

/-- `fn y(opcode: u16) -> VReg { VReg::from_u16((opcode >> 4) & 0x0F).unwrap() }` -/
def y (opcode : Nat) : Fin 16 :=
  ⟨(opcode >>> 4) &&& 0x0F, Nat.lt_succ_of_le Nat.and_le_right⟩

/-- `fn kk(opcode: u16) -> u8 { (opcode & 0xFF) as u8 }` -/
def kk (opcode : Nat) : Nat := opcode &&& 0xFF

/-- `fn n(opcode: u16) -> u8 { (opcode & 0xF) as u8 }` -/
def n (opcode : Nat) : Nat := opcode &&& 0xF

/-- `parse_opcode_8` from opcode.rs: the 8XY* ALU group, keyed on the low nibble. -/
def parse_opcode_8 (opcode : Nat) : Option Instr :=
  match opcode &&& 0xF with
  | 0x0 => some (.LoadReg (x opcode) (y opcode))
  | 0x1 => some (.OrReg (x opcode) (y opcode))
  | 0x2 => some (.AndReg (x opcode) (y opcode))
  | 0x3 => some (.XorReg (x opcode) (y opcode))
  | 0x4 => some (.AddReg (x opcode) (y opcode))
  | 0x5 => some (.SubReg (x opcode) (y opcode))
  | 0x6 => some (.ShiftRight (x opcode) (y opcode))
  | 0x7 => some (.SubN (x opcode) (y opcode))
  | 0xE => some (.ShiftLeft (x opcode) (y opcode))
  | _ => none

/-- `parse_opcode_e` from opcode.rs: EX9E / EXA1, keyed on the low byte. -/
def parse_opcode_e (opcode : Nat) : Option Instr :=
  match opcode &&& 0xFF with
  | 0x9E => some (.SkipKeyPressed (x opcode))
  | 0xA1 => some (.SkipKeyNotPressed (x opcode))
  | _ => none

/-- `parse_opcode_f` from opcode.rs: the FX** group, keyed on the low byte. -/
def parse_opcode_f (opcode : Nat) : Option Instr :=
  match opcode &&& 0xFF with
  | 0x07 => some (.LoadDelayTimer (x opcode))
  | 0x0A => some (.WaitKeyPress (x opcode))
  | 0x15 => some (.SetDelayTimer (x opcode))
  | 0x18 => some (.SetSoundTimer (x opcode))
  | 0x1E => some (.AddI (x opcode))
  | 0x29 => some (.LoadSprite (x opcode))
  | 0x33 => some (.LoadBCD (x opcode))
  | 0x55 => some (.SaveRegs (x opcode))
  | 0x65 => some (.LoadRegs (x opcode))
  | _ => none

/-- `parse_opcode` from opcode.rs: full decode of a 16-bit big-endian word.
The source matches the whole word against `0x00E0`/`0x00EE` and otherwise
dispatches on the most significant nibble (with the `5XY0`/`9XY0` low-nibble
guard). -/
def parse_opcode (opcode : Nat) : Option Instr :=
  if opcode = 0x00E0 then some .ClearDisplay
  else if opcode = 0x00EE then some .Return
  else
    match opcode >>> 12 with
    | 0x1 => some (.Jump (nnn opcode))
    | 0x2 => some (.Call (nnn opcode))
    | 0x3 => some (.SkipEqImm (x opcode) (kk opcode))
    | 0x4 => some (.SkipNotEqImm (x opcode) (kk opcode))
    | 0x5 => if opcode &&& 0xF = 0x0 then some (.SkipEqReg (x opcode) (y opcode)) else none
    | 0x6 => some (.LoadImm (x opcode) (kk opcode))
    | 0x7 => some (.AddImm (x opcode) (kk opcode))
    | 0x8 => parse_opcode_8 opcode
    | 0x9 => if opcode &&& 0xF = 0x0 then some (.SkipNotEqReg (x opcode) (y opcode)) else none
    | 0xA => some (.LoadI (nnn opcode))
    | 0xB => some (.JumpV0 (nnn opcode))
    | 0xC => some (.Random (x opcode) (kk opcode))
    | 0xD => some (.Draw (x opcode) (y opcode) (n opcode))
    | 0xE => parse_opcode_e opcode
    | 0xF => parse_opcode_f opcode
    | _ => none

/-! ### keyboard.rs (the pure part used by the interpreter) -/

/-- `Key::from(v: u8) -> Option<Key>` via `FromPrimitive`: succeeds exactly
for the sixteen key numbers `0x0..=0xF`. -/
def Key.from (v : Nat) : Option (Fin 16) :=
  if h : v < 16 then some ⟨v, h⟩ else none

/-! ### memory.rs -/

/-- `MEMORY_SIZE` -/
def MEMORY_SIZE : Nat := 4096

/-- `RESERVED_SIZE` -/
def RESERVED_SIZE : Nat := 512

/-- `Memory::read_u16`: big-endian 16-bit read, `None` past the end. -/
def read_u16 (m : List Nat) (addr : Nat) : Option Nat :=
  match m[addr]?, m[addr + 1]? with
  | some hi, some lo => some (hi * 256 + lo)
  | _, _ => none

/-- `Memory::read_slice`: `self.bytes.get(addr..addr + n)`. -/
def read_slice (m : List Nat) (addr : Nat) (cnt : Nat) : Option (List Nat) :=
  if addr + cnt ≤ m.length then some ((m.drop addr).take cnt) else none

/-- `Memory::write_slice`: byte-by-byte copy of `data` starting at `addr`
(the source indexes `self.bytes[addr..addr+len]`, which panics out of
bounds; in bounds it is exactly this element-wise overwrite). -/
def write_slice (m : List Nat) (addr : Nat) (data : List Nat) : List Nat :=
  match data with
  | [] => m
  | d :: ds => write_slice (m.set addr d) (addr + 1) ds

/-! ### display.rs -/

def DISPLAY_WIDTH : Nat := 64
def DISPLAY_HEIGHT : Nat := 32
def DISPLAY_BUFFER_SIZE : Nat := 2048

/-- `fn bit_at(input: u8, n: u8) -> bool { if n < 8 { input & (1 << n) != 0 } else { false } }` -/
def bit_at (input : Nat) (nb : Nat) : Bool :=
  if nb < 8 then decide (input &&& (1 <<< nb) ≠ 0) else false

/-- One iteration of the inner loop body of `DisplayBuffer::draw_sprite`:
`if let Some(mut pixel) = self.pixels.get_mut(i) { ... }` operating on the
pair (pixel buffer, collision flag). -/
def draw_cell (st : List Bool × Bool) (i : Nat) (s : Bool) : List Bool × Bool :=
  match st.1[i]? with
  | some prev =>
    let new := xor prev s
    (st.1.set i new, st.2 || (prev && !new))
  | none => st

/-- `DisplayBuffer::draw_sprite` (display.rs lines 48-75): XOR-blit of
`sprite` with origin `(x, y)`; every coordinate wraps (rows mod 32,
columns mod 64). Returns the updated buffer and the collision flag. -/
def draw_sprite (pixels : List Bool) (px0 py0 : Nat) (sprite : List Nat) : List Bool × Bool :=
  sprite.enum.foldl
    (fun st rd =>
      let py := (py0 + rd.1) % DISPLAY_HEIGHT
      (List.range 8).foldl
        (fun st2 bit =>
          let px := (px0 + bit) % DISPLAY_WIDTH
          draw_cell st2 (DISPLAY_WIDTH * py + px) (bit_at rd.2 (7 - bit)))
        st)
    (pixels, false)

/-- Modelled from the spec: `DisplayBuffer::draw_sprite_wrapped`, called by
system.rs but absent from src/ (the display.rs present in src/ is an older
revision with a single `draw_sprite`). Per spec section 4.2, the wrapped
blit takes every target row mod 32 and every target column mod 64, which is
exactly what the in-src `draw_sprite` does, so we reuse it. -/
def draw_sprite_wrapped (pixels : List Bool) (px0 py0 : Nat) (sprite : List Nat) :
    List Bool × Bool :=
  draw_sprite pixels px0 py0 sprite

/-- Modelled from the spec: `DisplayBuffer::draw_sprite_clipped`, called by
system.rs but absent from src/. Per spec section 4.2: the origin is taken
modulo (64, 32), each target row is `(y + r) mod 32`, and a target column
`(x mod 64) + b` is skipped when it is out of range (≥ 64) instead of
wrapping. -/
def draw_sprite_clipped (pixels : List Bool) (px0 py0 : Nat) (sprite : List Nat) :
    List Bool × Bool :=
  sprite.enum.foldl
    (fun st rd =>
      let py := (py0 % DISPLAY_HEIGHT + rd.1) % DISPLAY_HEIGHT
      (List.range 8).foldl
        (fun st2 bit =>
          let px := px0 % DISPLAY_WIDTH + bit
          if px < DISPLAY_WIDTH then
            draw_cell st2 (DISPLAY_WIDTH * py + px) (bit_at rd.2 (7 - bit))
          else st2)
        st)
    (pixels, false)

/-- `FONT_SPRITES_ADDRESS` -/
def FONT_SPRITES_ADDRESS : Nat := 0

/-! ### system.rs -/

inductive SystemError where
  | OddPcAddress
  | UnknownInstruction
  | MemoryReadOverflow
  | StackUnderflow
  | StackOverflow
  | SelfJump
  | Interrupted
  deriving DecidableEq

/-- The three quirk bitflags of `Quirks`. -/
structure Quirks where
  load_store_ignores_i : Bool
  shift_reads_vx : Bool
  draw_wraps_pixels : Bool
  deriving DecidableEq

/-- `VReg::VF` as a register index. -/
def VF : Fin 16 := 15

/-- `VReg::V0` as a register index. -/
def V0 : Fin 16 := 0

def STACK_SIZE : Nat := 16

/-- `struct Cpu`: `pc`, register bank `v`, index register `i`, call stack.
The list HEAD is the top of the stack. -/
structure Cpu where
  pc : Nat
  v : Fin 16 → Nat
  i : Nat
  stack : List Nat

/-- The pure fragment of `struct System` that `execute_next_inst` touches:
CPU, the two timer values, the keyboard state snapshot (`is_key_down`),
the pixel buffer, memory, and the quirk options. -/
structure System where
  cpu : Cpu
  delay_timer : Nat
  sound_timer : Nat
  keys : Fin 16 → Bool
  display : List Bool
  memory : List Nat
  quirks : Quirks

/-- `self.cpu.pc += 2` (u16 wrapping add, as in a release build). -/
def inc_pc (s : System) : System :=
  { s with cpu := { s.cpu with pc := (s.cpu.pc + 2) % 65536 } }

/-- The body of the `match opcode` in `System::execute_next_inst`.
Arms that in the source `return Ok(())` early (Jump, Call, JumpV0) skip the
trailing `self.cpu.pc += 2`; all other successful arms end with `inc_pc`.
`randByte` stands for `rng.gen::<u8>()` and `keyPress` for the outcome of
`self.keyboard.wait_for_key_press()` (`none` = interrupted). -/
def exec_instr (s : System) (opcode : Instr) (randByte : Nat) (keyPress : Option (Fin 16)) :
    System × Option SystemError :=
  match opcode with
  | .ClearDisplay =>
    (inc_pc { s with display := List.replicate DISPLAY_BUFFER_SIZE false }, none)
  | .Return =>
    match s.cpu.stack with
    | [] => (s, some .StackUnderflow)
    | a :: rest =>
      (inc_pc { s with cpu := { s.cpu with pc := a, stack := rest } }, none)
  | .Jump nnn =>
    if s.cpu.pc = nnn then (s, some .SelfJump)
    else ({ s with cpu := { s.cpu with pc := nnn } }, none)
  | .Call nnn =>
    if 16 ≤ s.cpu.stack.length then (s, some .StackOverflow)
    else ({ s with cpu := { s.cpu with pc := nnn, stack := s.cpu.pc :: s.cpu.stack } }, none)
  | .SkipEqImm xr kkv =>
    (inc_pc (if s.cpu.v xr = kkv then inc_pc s else s), none)
  | .SkipNotEqImm xr kkv =>
    (inc_pc (if s.cpu.v xr ≠ kkv then inc_pc s else s), none)
  | .SkipEqReg xr yr =>
    (inc_pc (if s.cpu.v xr = s.cpu.v yr then inc_pc s else s), none)
  | .LoadImm xr kkv =>
    (inc_pc { s with cpu := { s.cpu with v := Function.update s.cpu.v xr kkv } }, none)
  | .AddImm xr kkv =>
    -- wrapping_add on u8
    (inc_pc { s with cpu :=
      { s.cpu with v := Function.update s.cpu.v xr ((s.cpu.v xr + kkv) % 256) } }, none)
  | .LoadReg xr yr =>
    (inc_pc { s with cpu := { s.cpu with v := Function.update s.cpu.v xr (s.cpu.v yr) } }, none)
  | .OrReg xr yr =>
    (inc_pc { s with cpu :=
      { s.cpu with v := Function.update s.cpu.v xr (s.cpu.v xr ||| s.cpu.v yr) } }, none)
  | .AndReg xr yr =>
    (inc_pc { s with cpu :=
      { s.cpu with v := Function.update s.cpu.v xr (s.cpu.v xr &&& s.cpu.v yr) } }, none)
  | .XorReg xr yr =>
    (inc_pc { s with cpu :=
      { s.cpu with v := Function.update s.cpu.v xr (s.cpu.v xr ^^^ s.cpu.v yr) } }, none)
  | .AddReg xr yr =>
    -- overflowing_add on u8: wrapped sum, carry flag; v[x] written first, VF second
    let sum := (s.cpu.v xr + s.cpu.v yr) % 256
    let overflow : Bool := decide (256 ≤ s.cpu.v xr + s.cpu.v yr)
    (inc_pc { s with cpu :=
      { s.cpu with v :=
        Function.update (Function.update s.cpu.v xr sum) VF (if overflow then 1 else 0) } },
     none)
  | .SubReg xr yr =>
    -- overflowing_sub on u8: wrapped difference, borrow flag; VF = !overflow
    let sub := (s.cpu.v xr + 256 - s.cpu.v yr) % 256
    let overflow : Bool := decide (s.cpu.v xr < s.cpu.v yr)
    (inc_pc { s with cpu :=
      { s.cpu with v :=
        Function.update (Function.update s.cpu.v xr sub) VF (if overflow then 0 else 1) } },
     none)
  | .ShiftRight xr yr =>
    -- NOTE: the source writes VF first, then the shifted result
    if s.quirks.shift_reads_vx then
      let v1 := Function.update s.cpu.v VF (s.cpu.v xr &&& 1)
      let v2 := Function.update v1 xr (v1 xr >>> 1)
      (inc_pc { s with cpu := { s.cpu with v := v2 } }, none)
    else
      let v1 := Function.update s.cpu.v VF (s.cpu.v yr &&& 1)
      let v2 := Function.update v1 xr (v1 yr >>> 1)
      (inc_pc { s with cpu := { s.cpu with v := v2 } }, none)
  | .SubN xr yr =>
    let sub := (s.cpu.v yr + 256 - s.cpu.v xr) % 256
    let overflow : Bool := decide (s.cpu.v yr < s.cpu.v xr)
    (inc_pc { s with cpu :=
      { s.cpu with v :=
        Function.update (Function.update s.cpu.v xr sub) VF (if overflow then 0 else 1) } },
     none)
  | .ShiftLeft xr yr =>
    -- NOTE: the source writes VF first, then the shifted result (u8 shl wraps)
    if s.quirks.shift_reads_vx then
      let v1 := Function.update s.cpu.v VF (if s.cpu.v xr &&& 0x80 ≠ 0 then 1 else 0)
      let v2 := Function.update v1 xr (v1 xr * 2 % 256)
      (inc_pc { s with cpu := { s.cpu with v := v2 } }, none)
    else
      let v1 := Function.update s.cpu.v VF (if s.cpu.v yr &&& 0x80 ≠ 0 then 1 else 0)
      let v2 := Function.update v1 xr (v1 yr * 2 % 256)
      (inc_pc { s with cpu := { s.cpu with v := v2 } }, none)
  | .SkipNotEqReg xr yr =>
    (inc_pc (if s.cpu.v xr ≠ s.cpu.v yr then inc_pc s else s), none)
  | .LoadI nnn =>
    (inc_pc { s with cpu := { s.cpu with i := nnn } }, none)
  | .JumpV0 nnn =>
    -- nnn.wrapping_add(v[V0] as u16)
    ({ s with cpu := { s.cpu with pc := (nnn + s.cpu.v V0) % 65536 } }, none)
  | .Random xr kkv =>
    (inc_pc { s with cpu :=
      { s.cpu with v := Function.update s.cpu.v xr (kkv &&& randByte) } }, none)
  | .Draw xr yr cnt =>
    match read_slice s.memory s.cpu.i cnt with
    | none => (s, some .MemoryReadOverflow)
    | some bytes =>
      let res :=
        if s.quirks.draw_wraps_pixels then
          draw_sprite_wrapped s.display (s.cpu.v xr) (s.cpu.v yr) bytes
        else
          draw_sprite_clipped s.display (s.cpu.v xr) (s.cpu.v yr) bytes
      (inc_pc { s with
        display := res.1,
        cpu := { s.cpu with v := Function.update s.cpu.v VF (if res.2 then 1 else 0) } },
       none)
  | .SkipKeyPressed xr =>
    match Key.from (s.cpu.v xr) with
    | some k => (inc_pc (if s.keys k then inc_pc s else s), none)
    | none => (inc_pc s, none)
  | .SkipKeyNotPressed xr =>
    match Key.from (s.cpu.v xr) with
    | some k => (inc_pc (if !s.keys k then inc_pc s else s), none)
    | none => (inc_pc s, none)
  | .LoadDelayTimer xr =>
    (inc_pc { s with cpu :=
      { s.cpu with v := Function.update s.cpu.v xr s.delay_timer } }, none)
  | .WaitKeyPress xr =>
    match keyPress with
    | none => (s, some .Interrupted)
    | some k =>
      (inc_pc { s with cpu := { s.cpu with v := Function.update s.cpu.v xr k.val } }, none)
  | .SetDelayTimer xr =>
    (inc_pc { s with delay_timer := s.cpu.v xr }, none)
  | .SetSoundTimer xr =>
    (inc_pc { s with sound_timer := s.cpu.v xr }, none)
  | .AddI xr =>
    -- wrapping_add on u16
    (inc_pc { s with cpu := { s.cpu with i := (s.cpu.i + s.cpu.v xr) % 65536 } }, none)
  | .LoadSprite xr =>
    (inc_pc { s with cpu := { s.cpu with i := FONT_SPRITES_ADDRESS + s.cpu.v xr * 5 } }, none)
  | .LoadBCD xr =>
    -- format!("{:03}", v[x]) digit bytes for a u8 value: hundreds, tens, ones
    let digits := [s.cpu.v xr / 100, s.cpu.v xr / 10 % 10, s.cpu.v xr % 10]
    (inc_pc { s with memory := write_slice s.memory s.cpu.i digits }, none)
  | .SaveRegs xr =>
    let regs := (List.range (xr.val + 1)).map fun j => s.cpu.v ⟨j % 16, Nat.mod_lt _ (by omega)⟩
    let s1 := { s with memory := write_slice s.memory s.cpu.i regs }
    if !s.quirks.load_store_ignores_i then
      (inc_pc { s1 with cpu := { s1.cpu with i := (s1.cpu.i + xr.val + 1) % 65536 } }, none)
    else (inc_pc s1, none)
  | .LoadRegs xr =>
    match read_slice s.memory s.cpu.i (xr.val + 1) with
    | none => (s, some .MemoryReadOverflow)
    | some bytes =>
      let s1 := { s with cpu :=
        { s.cpu with v := fun j => if j.val ≤ xr.val then bytes.getD j.val 0 else s.cpu.v j } }
      if !s1.quirks.load_store_ignores_i then
        (inc_pc { s1 with cpu := { s1.cpu with i := (s1.cpu.i + xr.val + 1) % 65536 } }, none)
      else (inc_pc s1, none)

/-- `System::execute_next_inst`: fetch the word at PC, decode, execute.
On error the state component is the unchanged input state (every error
path in the source returns before mutating `self`). -/
def execute_next_inst (s : System) (randByte : Nat) (keyPress : Option (Fin 16)) :
    System × Option SystemError :=
  match read_u16 s.memory s.cpu.pc with
  | none => (s, some .MemoryReadOverflow)
  | some instr =>
    match parse_opcode instr with
    | none => (s, some .UnknownInstruction)
    | some opcode => exec_instr s opcode randByte keyPress

/-- The fetch-decode-execute loop of `System::run`, restricted to its pure
effect: execute up to `steps` instructions, stopping at the first error. -/
def run (s : System) (randByte : Nat) (keyPress : Option (Fin 16)) :
    Nat → System × Option SystemError
  | 0 => (s, none)
  | steps + 1 =>
    match execute_next_inst s randByte keyPress with
    | (s1, none) => run s1 randByte keyPress steps
    | (s1, some e) => (s1, some e)

/-- Well-formedness of a `System` state: 4 KiB memory of bytes, byte-valued
registers and delay timer, and every stacked return address a valid fetch
address. All of these hold for the initial state and are preserved by
execution. -/
def WellFormed (s : System) : Prop :=
  s.memory.length = 4096 ∧
  (∀ b ∈ s.memory, b < 256) ∧
  (∀ j : Fin 16, s.cpu.v j < 256) ∧
  (∀ a ∈ s.cpu.stack, a ≤ 0xFFE) ∧
  s.delay_timer < 256

/-! ### Proof-side description of the sprite blit

`draw_sprite` (and the clipped variant) iterate a loop body `draw_cell`
over a sequence of (cell index, sprite bit) pairs.  The following
definitions name that sequence so that the blit can be characterised
pointwise. -/

/-- The (cell index, sprite bit) pairs visited for one sprite row in
wrapped mode. -/
def rowHits (px0 py data : Nat) : List (Nat × Bool) :=
  (List.range 8).map fun bit =>
    (DISPLAY_WIDTH * py + (px0 + bit) % DISPLAY_WIDTH, bit_at data (7 - bit))

/-- The (cell index, sprite bit) pairs visited for one sprite row in
clipped mode: columns past the right edge are dropped. -/
def rowHitsClipped (px0 py data : Nat) : List (Nat × Bool) :=
  ((List.range 8).filter fun bit => px0 % DISPLAY_WIDTH + bit < DISPLAY_WIDTH).map fun bit =>
    (DISPLAY_WIDTH * py + (px0 % DISPLAY_WIDTH + bit), bit_at data (7 - bit))

/-- All pairs visited by the wrapped blit, rows starting at index `r0`. -/
def spriteHitsAux (px0 py0 : Nat) (rows : List Nat) (r0 : Nat) : List (Nat × Bool) :=
  match rows with
  | [] => []
  | d :: ds =>
    rowHits px0 ((py0 + r0) % DISPLAY_HEIGHT) d ++ spriteHitsAux px0 py0 ds (r0 + 1)

/-- All pairs visited by the wrapped blit of `sprite` at `(px0, py0)`. -/
def spriteHits (px0 py0 : Nat) (sprite : List Nat) : List (Nat × Bool) :=
  spriteHitsAux px0 py0 sprite 0

/-- All pairs visited by the clipped blit, rows starting at index `r0`. -/
def spriteHitsClippedAux (px0 py0 : Nat) (rows : List Nat) (r0 : Nat) : List (Nat × Bool) :=
  match rows with
  | [] => []
  | d :: ds =>
    rowHitsClipped px0 ((py0 % DISPLAY_HEIGHT + r0) % DISPLAY_HEIGHT) d ++
      spriteHitsClippedAux px0 py0 ds (r0 + 1)

/-- All pairs visited by the clipped blit of `sprite` at `(px0, py0)`. -/
def spriteHitsClipped (px0 py0 : Nat) (sprite : List Nat) : List (Nat × Bool) :=
  spriteHitsClippedAux px0 py0 sprite 0

/-- Folding the blit loop body over a hit list. -/
def drawFold (hl : List (Nat × Bool)) (st : List Bool × Bool) : List Bool × Bool :=
  hl.foldl (fun st2 h => draw_cell st2 h.1 h.2) st

/-- Whether the hit list toggles cell `j`. -/
def hitMask (hl : List (Nat × Bool)) (j : Nat) : Bool :=
  hl.any fun h => h.1 == j && h.2

/-- Whether blitting the hit list onto buffer `p` reports a collision:
some visited in-range cell is lit in `p` and receives a 1 sprite bit. -/
def collides (p : List Bool) (hl : List (Nat × Bool)) : Bool :=
  hl.any fun h => h.2 && p.getD h.1 false

end Chip8

/-! ### c8asm: ast.rs and generator.rs -/

namespace C8asm

/-- `enum Addr` from ast.rs: immediate 12-bit address or symbolic label. -/
inductive Addr where
  | Imm (a : Nat)
  | LabelRef (s : String)
  deriving DecidableEq

/-- `enum Opcode` from ast.rs (`type VReg = u8`, so register operands are
plain byte values here). -/
inductive Opcode where
  | ClearDisplay
  | Return
  | Jump (a : Addr)
  | Call (a : Addr)
  | SkipEqImm (r : Nat) (b : Nat)
  | SkipNotEqImm (r : Nat) (b : Nat)
  | SkipEqReg (r1 r2 : Nat)
  | LoadImm (r : Nat) (b : Nat)
  | AddImm (r : Nat) (b : Nat)
  | LoadReg (r1 r2 : Nat)
  | OrReg (r1 r2 : Nat)
  | AndReg (r1 r2 : Nat)
  | XorReg (r1 r2 : Nat)
  | AddReg (r1 r2 : Nat)
  | SubReg (r1 r2 : Nat)
  | ShiftRight (r1 r2 : Nat)
  | SubN (r1 r2 : Nat)
  | ShiftLeft (r1 r2 : Nat)
  | SkipNotEqReg (r1 r2 : Nat)
  | LoadI (a : Addr)
  | JumpV0 (a : Addr)
  | Random (r : Nat) (b : Nat)
  | Draw (r1 r2 : Nat) (nb : Nat)
  | SkipKeyPressed (r : Nat)
  | SkipKeyNotPressed (r : Nat)
  | LoadDelayTimer (r : Nat)
  | WaitKeyPress (r : Nat)
  | SetDelayTimer (r : Nat)
  | SetSoundTimer (r : Nat)
  | AddI (r : Nat)
  | LoadSprite (r : Nat)
  | LoadBCD (r : Nat)
  | SaveRegs (r : Nat)
  | LoadRegs (r : Nat)
  deriving DecidableEq

/-- `fn addr(c, addr, labels)` from generator.rs. -/
def addr (c : Nat) (a : Addr) (labels : List (String × Nat)) : Except String Nat :=
  match a with
  | .Imm v => .ok (c ||| (v &&& 0xFFF))
  | .LabelRef s =>
    match labels.lookup s with
    | some v => .ok (c ||| (v &&& 0xFFF))
    | none => .error ("unknown label: " ++ s)

/-- `fn reg_imm(c, r, b)` from generator.rs. -/
def reg_imm (c r b : Nat) : Nat := c ||| (r <<< 8) ||| b

/-- `fn reg_reg(c, r1, r2)` from generator.rs. -/
def reg_reg (c r1 r2 : Nat) : Nat := c ||| (r1 <<< 8) ||| (r2 <<< 4)

/-- `fn reg_reg_nib(c, r1, r2, n)` from generator.rs. -/
def reg_reg_nib (c r1 r2 nb : Nat) : Nat := c ||| (r1 <<< 8) ||| (r2 <<< 4) ||| (nb &&& 0xF)

/-- `fn reg(c, r)` from generator.rs. -/
def reg (c r : Nat) : Nat := c ||| (r <<< 8)

/-- `fn opcode(o, labels, w)` from generator.rs, returning the 16-bit code
that the source then writes out as two big-endian bytes. -/
def opcode (o : Opcode) (labels : List (String × Nat)) : Except String Nat :=
  match o with
  | .ClearDisplay => .ok 0x00E0
  | .Return => .ok 0x00EE
  | .Jump a => addr 0x1000 a labels
  | .Call a => addr 0x2000 a labels
  | .SkipEqImm r b => .ok (reg_imm 0x3000 r b)
  | .SkipNotEqImm r b => .ok (reg_imm 0x4000 r b)
  | .SkipEqReg r1 r2 => .ok (reg_reg 0x5000 r1 r2)
  | .LoadImm r b => .ok (reg_imm 0x6000 r b)
  | .AddImm r b => .ok (reg_imm 0x7000 r b)
  | .LoadReg r1 r2 => .ok (reg_reg 0x8000 r1 r2)
  | .OrReg r1 r2 => .ok (reg_reg 0x8001 r1 r2)
  | .AndReg r1 r2 => .ok (reg_reg 0x8002 r1 r2)
  | .XorReg r1 r2 => .ok (reg_reg 0x8003 r1 r2)
  | .AddReg r1 r2 => .ok (reg_reg 0x8004 r1 r2)
  | .SubReg r1 r2 => .ok (reg_reg 0x8005 r1 r2)
  | .ShiftRight r1 r2 => .ok (reg_reg 0x8006 r1 r2)
  | .SubN r1 r2 => .ok (reg_reg 0x8007 r1 r2)
  | .ShiftLeft r1 r2 => .ok (reg_reg 0x800E r1 r2)
  | .SkipNotEqReg r1 r2 => .ok (reg_reg 0x9000 r1 r2)
  | .LoadI a => addr 0xA000 a labels
  | .JumpV0 a => addr 0xB000 a labels
  | .Random r b => .ok (reg_imm 0xC000 r b)
  | .Draw r1 r2 nb => .ok (reg_reg_nib 0xD000 r1 r2 nb)
  | .SkipKeyPressed r => .ok (reg 0xE09E r)
  | .SkipKeyNotPressed r => .ok (reg 0xE0A1 r)
  | .LoadDelayTimer r => .ok (reg 0xF007 r)
  | .WaitKeyPress r => .ok (reg 0xF00A r)
  | .SetDelayTimer r => .ok (reg 0xF015 r)
  | .SetSoundTimer r => .ok (reg 0xF018 r)
  | .AddI r => .ok (reg 0xF01E r)
  | .LoadSprite r => .ok (reg 0xF029 r)
  | .LoadBCD r => .ok (reg 0xF033 r)
  | .SaveRegs r => .ok (reg 0xF055 r)
  | .LoadRegs r => .ok (reg 0xF065 r)

/-- Well-formedness of an assembler opcode for the round-trip claim:
register operands name one of the 16 registers, byte immediates are byte
values (they have type `u8` in ast.rs), the draw nibble is a nibble, and
address operands are immediates of at most 0xFFF. -/
def addr_wf : Addr → Prop
  | .Imm a => a ≤ 0xFFF
  | .LabelRef _ => False

def Opcode.wf : Opcode → Prop
  | .ClearDisplay => True
  | .Return => True
  | .Jump a => addr_wf a
  | .Call a => addr_wf a
  | .SkipEqImm r b => r < 16 ∧ b < 256
  | .SkipNotEqImm r b => r < 16 ∧ b < 256
  | .SkipEqReg r1 r2 => r1 < 16 ∧ r2 < 16
  | .LoadImm r b => r < 16 ∧ b < 256
  | .AddImm r b => r < 16 ∧ b < 256
  | .LoadReg r1 r2 => r1 < 16 ∧ r2 < 16
  | .OrReg r1 r2 => r1 < 16 ∧ r2 < 16
  | .AndReg r1 r2 => r1 < 16 ∧ r2 < 16
  | .XorReg r1 r2 => r1 < 16 ∧ r2 < 16
  | .AddReg r1 r2 => r1 < 16 ∧ r2 < 16
  | .SubReg r1 r2 => r1 < 16 ∧ r2 < 16
  | .ShiftRight r1 r2 => r1 < 16 ∧ r2 < 16
  | .SubN r1 r2 => r1 < 16 ∧ r2 < 16
  | .ShiftLeft r1 r2 => r1 < 16 ∧ r2 < 16
  | .SkipNotEqReg r1 r2 => r1 < 16 ∧ r2 < 16
  | .LoadI a => addr_wf a
  | .JumpV0 a => addr_wf a
  | .Random r b => r < 16 ∧ b < 256
  | .Draw r1 r2 nb => r1 < 16 ∧ r2 < 16 ∧ nb < 16
  | .SkipKeyPressed r => r < 16
  | .SkipKeyNotPressed r => r < 16
  | .LoadDelayTimer r => r < 16
  | .WaitKeyPress r => r < 16
  | .SetDelayTimer r => r < 16
  | .SetSoundTimer r => r < 16
  | .AddI r => r < 16
  | .LoadSprite r => r < 16
  | .LoadBCD r => r < 16
  | .SaveRegs r => r < 16
  | .LoadRegs r => r < 16

/-- Register index as a `Fin 16` (used to state the correspondence; under
`Opcode.wf` the `% 16` is the identity). -/
def reg_fin (r : Nat) : Fin 16 := ⟨r % 16, Nat.mod_lt _ (by omega)⟩

/-- The interpreter instruction corresponding to an assembler opcode
(`none` for unresolved symbolic labels). -/
def toInstr : Opcode → Option Chip8.Instr
  | .ClearDisplay => some .ClearDisplay
  | .Return => some .Return
  | .Jump (.Imm a) => some (.Jump a)
  | .Jump (.LabelRef _) => none
  | .Call (.Imm a) => some (.Call a)
  | .Call (.LabelRef _) => none
  | .SkipEqImm r b => some (.SkipEqImm (reg_fin r) b)
  | .SkipNotEqImm r b => some (.SkipNotEqImm (reg_fin r) b)
  | .SkipEqReg r1 r2 => some (.SkipEqReg (reg_fin r1) (reg_fin r2))
  | .LoadImm r b => some (.LoadImm (reg_fin r) b)
  | .AddImm r b => some (.AddImm (reg_fin r) b)
  | .LoadReg r1 r2 => some (.LoadReg (reg_fin r1) (reg_fin r2))
  | .OrReg r1 r2 => some (.OrReg (reg_fin r1) (reg_fin r2))
  | .AndReg r1 r2 => some (.AndReg (reg_fin r1) (reg_fin r2))
  | .XorReg r1 r2 => some (.XorReg (reg_fin r1) (reg_fin r2))
  | .AddReg r1 r2 => some (.AddReg (reg_fin r1) (reg_fin r2))
  | .SubReg r1 r2 => some (.SubReg (reg_fin r1) (reg_fin r2))
  | .ShiftRight r1 r2 => some (.ShiftRight (reg_fin r1) (reg_fin r2))
  | .SubN r1 r2 => some (.SubN (reg_fin r1) (reg_fin r2))
  | .ShiftLeft r1 r2 => some (.ShiftLeft (reg_fin r1) (reg_fin r2))
  | .SkipNotEqReg r1 r2 => some (.SkipNotEqReg (reg_fin r1) (reg_fin r2))
  | .LoadI (.Imm a) => some (.LoadI a)
  | .LoadI (.LabelRef _) => none
  | .JumpV0 (.Imm a) => some (.JumpV0 a)
  | .JumpV0 (.LabelRef _) => none
  | .Random r b => some (.Random (reg_fin r) b)
  | .Draw r1 r2 nb => some (.Draw (reg_fin r1) (reg_fin r2) nb)
  | .SkipKeyPressed r => some (.SkipKeyPressed (reg_fin r))
  | .SkipKeyNotPressed r => some (.SkipKeyNotPressed (reg_fin r))
  | .LoadDelayTimer r => some (.LoadDelayTimer (reg_fin r))
  | .WaitKeyPress r => some (.WaitKeyPress (reg_fin r))
  | .SetDelayTimer r => some (.SetDelayTimer (reg_fin r))
  | .SetSoundTimer r => some (.SetSoundTimer (reg_fin r))
  | .AddI r => some (.AddI (reg_fin r))
  | .LoadSprite r => some (.LoadSprite (reg_fin r))
  | .LoadBCD r => some (.LoadBCD (reg_fin r))
  | .SaveRegs r => some (.SaveRegs (reg_fin r))
  | .LoadRegs r => some (.LoadRegs (reg_fin r))

end C8asm

namespace Chip8

/-! ### Concrete states used by counterexamples, scenarios, and witnesses -/

/-- A minimal state: PC 0, zeroed registers, cleared display, no keys down,
default quirks, with the given memory contents. -/
def mkSys (mem : List Nat) : System :=
  { cpu := { pc := 0, v := fun _ => 0, i := 0, stack := [] }
    delay_timer := 0
    sound_timer := 0
    keys := fun _ => false
    display := List.replicate 2048 false
    memory := mem
    quirks := { load_store_ignores_i := false, shift_reads_vx := false,
                draw_wraps_pixels := false } }

/-- The stack-overflow scenario ROM of spec section 8: seventeen
consecutive `CALL 0x202` encodings (`0x22 0x02`) loaded at 0x200. -/
def overflowROM : List Nat :=
  List.replicate 512 0 ++
  [0x22, 0x02, 0x22, 0x02, 0x22, 0x02, 0x22, 0x02, 0x22, 0x02, 0x22, 0x02,
   0x22, 0x02, 0x22, 0x02, 0x22, 0x02, 0x22, 0x02, 0x22, 0x02, 0x22, 0x02,
   0x22, 0x02, 0x22, 0x02, 0x22, 0x02, 0x22, 0x02, 0x22, 0x02]

/-- The stack-overflow scenario start state: PC at the load address 0x200. -/
def overflowStart : System :=
  { mkSys overflowROM with cpu := { (mkSys overflowROM).cpu with pc := 0x200 } }

/-- A state whose PC sits at the very top of memory (0xFFE), where a CLS
instruction is stored. -/
def topState : System :=
  { mkSys (List.replicate 4094 0 ++ [0x00, 0xE0]) with
    cpu := { (mkSys (List.replicate 4094 0 ++ [0x00, 0xE0])).cpu with pc := 0xFFE } }

/-- The operand well-formedness that `parse_opcode` guarantees: address
fields are 12-bit, immediate bytes 8-bit, the draw row count a nibble. -/
def instr_wf : Instr → Prop
  | .Jump a => a ≤ 0xFFF
  | .Call a => a ≤ 0xFFF
  | .LoadI a => a ≤ 0xFFF
  | .JumpV0 a => a ≤ 0xFFF
  | .SkipEqImm _ k => k ≤ 0xFF
  | .SkipNotEqImm _ k => k ≤ 0xFF
  | .LoadImm _ k => k ≤ 0xFF
  | .AddImm _ k => k ≤ 0xFF
  | .Random _ k => k ≤ 0xFF
  | .Draw _ _ c => c ≤ 0xF
  | _ => True

/-! ## Lemmas about the sprite blit -/

theorem collides_congr {p q : List Bool} {hl : List (Nat × Bool)}
    (h : ∀ pr ∈ hl, p.getD pr.1 false = q.getD pr.1 false) :
    collides p hl = collides q hl := by
  unfold collides
  induction hl with
  | nil => rfl
  | cons hd tl ih =>
    simp only [List.any_cons]
    rw [h hd (List.mem_cons_self hd tl), ih fun pr hpr => h pr (List.mem_cons_of_mem hd hpr)]

/-- Pointwise characterisation of folding the blit loop body over a hit
list whose cell indices are pairwise distinct: every cell is XORed with
its (unique) hit bit, and a collision is reported iff some 1 hit bit
lands on a lit in-range cell. -/
theorem drawFold_spec (hl : List (Nat × Bool)) (p : List Bool) (c : Bool)
    (hnd : (hl.map Prod.fst).Nodup) :
    (∀ j, (drawFold hl (p, c)).1[j]? = (p[j]?).map fun b => xor b (hitMask hl j)) ∧
    (drawFold hl (p, c)).2 = (c || collides p hl) := by
  induction hl generalizing p c with
  | nil =>
    simp [drawFold, hitMask, collides, Option.map_id']
  | cons hd tl ih =>
    obtain ⟨i, s⟩ := hd
    simp only [List.map_cons, List.nodup_cons] at hnd
    obtain ⟨hni, hnd⟩ := hnd
    have hkey : ∀ pr ∈ tl, pr.1 ≠ i := by
      intro pr hpr he
      exact hni (he ▸ List.mem_map_of_mem Prod.fst hpr)
    have step : drawFold ((i, s) :: tl) (p, c) = drawFold tl (draw_cell (p, c) i s) := rfl
    cases hp : p[i]? with
    | none =>
      have hcell : draw_cell (p, c) i s = (p, c) := by
        unfold draw_cell; rw [hp]
      rw [step, hcell]
      obtain ⟨ihget, ihcol⟩ := ih p c hnd
      refine ⟨fun j => ?_, ?_⟩
      · rw [ihget j]
        by_cases hij : j = i
        · subst hij
          rw [hp]; simp
        · have : hitMask ((i, s) :: tl) j = hitMask tl j := by
            simp only [hitMask, List.any_cons]
            have : (i == j) = false := by
              simp [Ne.symm hij]
            simp [this]
          rw [this]
      · rw [ihcol]
        have hout : p.getD i false = false := by
          rw [List.getD_eq_getElem?_getD, hp]; rfl
        simp only [collides, List.any_cons, hout]
        simp
    | some prev =>
      have hilt : i < p.length := (List.getElem?_eq_some_iff.mp hp).choose
      have hcell : draw_cell (p, c) i s
          = (p.set i (xor prev s), c || (prev && !(xor prev s))) := by
        unfold draw_cell; rw [hp]
      rw [step, hcell]
      obtain ⟨ihget, ihcol⟩ := ih (p.set i (xor prev s)) (c || (prev && !(xor prev s))) hnd
      have hmask_tl_i : (tl.any fun h => h.1 == i && h.2) = false := by
        rw [List.any_eq_false]
        intro pr hpr
        simp [hkey pr hpr]
      refine ⟨fun j => ?_, ?_⟩
      · rw [ihget j]
        by_cases hij : j = i
        · subst hij
          rw [List.getElem?_set_self hilt, hp]
          have hm : hitMask ((j, s) :: tl) j = s := by
            simp [hitMask, List.any_cons, hmask_tl_i]
          have hmf : hitMask tl j = false := hmask_tl_i
          rw [hm]
          simp [hmf]
        · rw [List.getElem?_set_ne (fun he => hij he.symm)]
          have : hitMask ((i, s) :: tl) j = hitMask tl j := by
            simp only [hitMask, List.any_cons]
            have : (i == j) = false := by simp [Ne.symm hij]
            simp [this]
          rw [this]
      · rw [ihcol]
        have hagree : collides (p.set i (xor prev s)) tl = collides p tl := by
          apply collides_congr
          intro pr hpr
          rw [List.getD_eq_getElem?_getD, List.getD_eq_getElem?_getD,
            List.getElem?_set_ne (fun he => hkey pr hpr he.symm)]
        rw [hagree]
        have hprev : p.getD i false = prev := by
          rw [List.getD_eq_getElem?_getD, hp]; rfl
        simp only [collides, List.any_cons, hprev]
        have hps : (prev && !(xor prev s)) = (s && prev) := by
          cases prev <;> cases s <;> rfl
        rw [hps]
        cases c <;> cases s <;> cases prev <;> simp [collides]

theorem foldl_filter_skip {α β : Type} (l : List α) (q : α → Bool) (g : β → α → β)
    (init : β) :
    l.foldl (fun st a => if q a then g st a else st) init = (l.filter q).foldl g init := by
  induction l generalizing init with
  | nil => rfl
  | cons hd tl ih =>
    rw [List.filter_cons]
    by_cases hq : q hd
    · simp only [List.foldl_cons, hq, if_pos, if_true]
      rw [ih]
    · simp only [List.foldl_cons, hq]
      simp only [if_false, Bool.false_eq_true]
      rw [ih]

theorem drawFold_append (a b : List (Nat × Bool)) (st : List Bool × Bool) :
    drawFold (a ++ b) st = drawFold b (drawFold a st) := by
  simp [drawFold, List.foldl_append]

/-- The inner loop of `draw_sprite` over one row equals folding over
`rowHits`. -/
theorem row_loop_eq_rowHits (px0 py d : Nat) (st : List Bool × Bool) :
    (List.range 8).foldl
      (fun st2 bit =>
        draw_cell st2 (DISPLAY_WIDTH * py + (px0 + bit) % DISPLAY_WIDTH) (bit_at d (7 - bit)))
      st
    = drawFold (rowHits px0 py d) st := by
  simp [drawFold, rowHits, List.foldl_map]

/-- The inner loop of `draw_sprite_clipped` over one row equals folding
over `rowHitsClipped`. -/
theorem row_loop_eq_rowHitsClipped (px0 py d : Nat) (st : List Bool × Bool) :
    (List.range 8).foldl
      (fun st2 bit =>
        if px0 % DISPLAY_WIDTH + bit < DISPLAY_WIDTH then
          draw_cell st2 (DISPLAY_WIDTH * py + (px0 % DISPLAY_WIDTH + bit)) (bit_at d (7 - bit))
        else st2)
      st
    = drawFold (rowHitsClipped px0 py d) st := by
  simp only [rowHitsClipped, drawFold, List.foldl_map]
  rw [← foldl_filter_skip]
  congr 1
  funext st2 bit
  by_cases hq : px0 % DISPLAY_WIDTH + bit < DISPLAY_WIDTH <;> simp [hq]

theorem draw_sprite_eq_drawFold (p : List Bool) (px0 py0 : Nat) (sprite : List Nat) :
    draw_sprite p px0 py0 sprite = drawFold (spriteHits px0 py0 sprite) (p, false) := by
  have main : ∀ (rows : List Nat) (r0 : Nat) (st : List Bool × Bool),
      (List.enumFrom r0 rows).foldl
        (fun st rd =>
          (List.range 8).foldl
            (fun st2 bit =>
              draw_cell st2
                (DISPLAY_WIDTH * ((py0 + rd.1) % DISPLAY_HEIGHT) +
                  (px0 + bit) % DISPLAY_WIDTH)
                (bit_at rd.2 (7 - bit)))
            st)
        st
      = drawFold (spriteHitsAux px0 py0 rows r0) st := by
    intro rows
    induction rows with
    | nil => intro r0 st; rfl
    | cons d ds ih =>
      intro r0 st
      rw [List.enumFrom_cons, List.foldl_cons]
      rw [ih (r0 + 1)]
      show drawFold (spriteHitsAux px0 py0 ds (r0 + 1)) _ = _
      rw [row_loop_eq_rowHits]
      rw [spriteHitsAux, drawFold_append]
  exact main sprite 0 (p, false)

theorem draw_sprite_clipped_eq_drawFold (p : List Bool) (px0 py0 : Nat) (sprite : List Nat) :
    draw_sprite_clipped p px0 py0 sprite
    = drawFold (spriteHitsClipped px0 py0 sprite) (p, false) := by
  have main : ∀ (rows : List Nat) (r0 : Nat) (st : List Bool × Bool),
      (List.enumFrom r0 rows).foldl
        (fun st rd =>
          (List.range 8).foldl
            (fun st2 bit =>
              if px0 % DISPLAY_WIDTH + bit < DISPLAY_WIDTH then
                draw_cell st2
                  (DISPLAY_WIDTH * ((py0 % DISPLAY_HEIGHT + rd.1) % DISPLAY_HEIGHT) +
                    (px0 % DISPLAY_WIDTH + bit))
                  (bit_at rd.2 (7 - bit))
              else st2)
            st)
        st
      = drawFold (spriteHitsClippedAux px0 py0 rows r0) st := by
    intro rows
    induction rows with
    | nil => intro r0 st; rfl
    | cons d ds ih =>
      intro r0 st
      rw [List.enumFrom_cons, List.foldl_cons]
      rw [ih (r0 + 1)]
      show drawFold (spriteHitsClippedAux px0 py0 ds (r0 + 1)) _ = _
      rw [row_loop_eq_rowHitsClipped]
      rw [spriteHitsClippedAux, drawFold_append]
  exact main sprite 0 (p, false)

theorem mem_rowHits_keys {px0 py d idx : Nat} :
    idx ∈ (rowHits px0 py d).map Prod.fst ↔
      ∃ b < 8, idx = DISPLAY_WIDTH * py + (px0 + b) % DISPLAY_WIDTH := by
  simp only [rowHits, List.map_map, List.mem_map, Function.comp, List.mem_range]
  constructor
  · rintro ⟨b, hb, rfl⟩; exact ⟨b, hb, rfl⟩
  · rintro ⟨b, hb, rfl⟩; exact ⟨b, hb, rfl⟩

theorem mem_rowHitsClipped_keys {px0 py d idx : Nat} :
    idx ∈ (rowHitsClipped px0 py d).map Prod.fst ↔
      ∃ b < 8, px0 % DISPLAY_WIDTH + b < DISPLAY_WIDTH ∧
        idx = DISPLAY_WIDTH * py + (px0 % DISPLAY_WIDTH + b) := by
  simp only [rowHitsClipped, List.map_map, List.mem_map, Function.comp, List.mem_filter,
    List.mem_range]
  constructor
  · rintro ⟨b, ⟨hb, hq⟩, rfl⟩
    exact ⟨b, hb, by simpa using hq, rfl⟩
  · rintro ⟨b, hb, hq, rfl⟩
    exact ⟨b, ⟨hb, by simpa using hq⟩, rfl⟩

theorem mem_spriteHitsAux_keys {px0 py0 : Nat} {rows : List Nat} {r0 idx : Nat} :
    idx ∈ (spriteHitsAux px0 py0 rows r0).map Prod.fst ↔
      ∃ r < rows.length, ∃ b < 8,
        idx = DISPLAY_WIDTH * ((py0 + (r0 + r)) % DISPLAY_HEIGHT) +
          (px0 + b) % DISPLAY_WIDTH := by
  induction rows generalizing r0 with
  | nil => simp [spriteHitsAux]
  | cons d ds ih =>
    simp only [spriteHitsAux, List.map_append, List.mem_append, ih, mem_rowHits_keys,
      List.length_cons]
    constructor
    · rintro (⟨b, hb, rfl⟩ | ⟨r, hr, b, hb, rfl⟩)
      · exact ⟨0, by omega, b, hb, by simp⟩
      · refine ⟨r + 1, by omega, b, hb, ?_⟩
        have : r0 + 1 + r = r0 + (r + 1) := by omega
        rw [this]
    · rintro ⟨r, hr, b, hb, rfl⟩
      cases r with
      | zero => exact Or.inl ⟨b, hb, by simp⟩
      | succ r =>
        refine Or.inr ⟨r, by omega, b, hb, ?_⟩
        have : r0 + 1 + r = r0 + (r + 1) := by omega
        rw [this]

theorem mem_spriteHitsClippedAux_keys {px0 py0 : Nat} {rows : List Nat} {r0 idx : Nat} :
    idx ∈ (spriteHitsClippedAux px0 py0 rows r0).map Prod.fst ↔
      ∃ r < rows.length, ∃ b < 8, px0 % DISPLAY_WIDTH + b < DISPLAY_WIDTH ∧
        idx = DISPLAY_WIDTH * ((py0 % DISPLAY_HEIGHT + (r0 + r)) % DISPLAY_HEIGHT) +
          (px0 % DISPLAY_WIDTH + b) := by
  induction rows generalizing r0 with
  | nil => simp [spriteHitsClippedAux]
  | cons d ds ih =>
    simp only [spriteHitsClippedAux, List.map_append, List.mem_append, ih,
      mem_rowHitsClipped_keys, List.length_cons]
    constructor
    · rintro (⟨b, hb, hq, rfl⟩ | ⟨r, hr, b, hb, hq, rfl⟩)
      · exact ⟨0, by omega, b, hb, hq, by simp⟩
      · refine ⟨r + 1, by omega, b, hb, hq, ?_⟩
        have : r0 + 1 + r = r0 + (r + 1) := by omega
        rw [this]
    · rintro ⟨r, hr, b, hb, hq, rfl⟩
      cases r with
      | zero => exact Or.inl ⟨b, hb, hq, by simp⟩
      | succ r =>
        refine Or.inr ⟨r, by omega, b, hb, hq, ?_⟩
        have : r0 + 1 + r = r0 + (r + 1) := by omega
        rw [this]

theorem rowHits_keys_nodup (px0 py d : Nat) :
    ((rowHits px0 py d).map Prod.fst).Nodup := by
  simp only [rowHits, List.map_map]
  apply List.Nodup.map_on
  · intro a ha b hb hab
    simp only [List.mem_range] at ha hb
    simp only [Function.comp] at hab
    have hw : DISPLAY_WIDTH = 64 := rfl
    rw [hw] at hab
    omega
  · exact List.nodup_range 8

theorem rowHitsClipped_keys_nodup (px0 py d : Nat) :
    ((rowHitsClipped px0 py d).map Prod.fst).Nodup := by
  simp only [rowHitsClipped, List.map_map]
  apply List.Nodup.map_on
  · intro a ha b hb hab
    simp only [List.mem_filter, List.mem_range] at ha hb
    simp only [Function.comp] at hab
    omega
  · exact (List.nodup_range 8).filter _

theorem spriteHitsAux_keys_nodup (px0 py0 : Nat) (rows : List Nat) (r0 : Nat)
    (hlen : rows.length ≤ 32) :
    ((spriteHitsAux px0 py0 rows r0).map Prod.fst).Nodup := by
  induction rows generalizing r0 with
  | nil => simp [spriteHitsAux]
  | cons d ds ih =>
    simp only [spriteHitsAux, List.map_append, List.nodup_append]
    refine ⟨rowHits_keys_nodup px0 _ d, ih (r0 + 1) (by simpa using Nat.le_of_succ_le hlen),
      ?_⟩
    intro idx hidx hidx2
    rw [mem_rowHits_keys] at hidx
    rw [mem_spriteHitsAux_keys] at hidx2
    obtain ⟨b, hb, rfl⟩ := hidx
    obtain ⟨r, hr, b2, hb2, heq⟩ := hidx2
    simp only [List.length_cons] at hlen
    have hds : ds.length ≤ 31 := by omega
    have hw : DISPLAY_WIDTH = 64 := rfl
    have hh : DISPLAY_HEIGHT = 32 := rfl
    rw [hw, hh] at heq
    omega

theorem spriteHitsClippedAux_keys_nodup (px0 py0 : Nat) (rows : List Nat) (r0 : Nat)
    (hlen : rows.length ≤ 32) :
    ((spriteHitsClippedAux px0 py0 rows r0).map Prod.fst).Nodup := by
  induction rows generalizing r0 with
  | nil => simp [spriteHitsClippedAux]
  | cons d ds ih =>
    simp only [spriteHitsClippedAux, List.map_append, List.nodup_append]
    refine ⟨rowHitsClipped_keys_nodup px0 _ d,
      ih (r0 + 1) (by simpa using Nat.le_of_succ_le hlen), ?_⟩
    intro idx hidx hidx2
    rw [mem_rowHitsClipped_keys] at hidx
    rw [mem_spriteHitsClippedAux_keys] at hidx2
    obtain ⟨b, hb, hq, rfl⟩ := hidx
    obtain ⟨r, hr, b2, hb2, hq2, heq⟩ := hidx2
    simp only [List.length_cons] at hlen
    have hds : ds.length ≤ 31 := by omega
    have hw : DISPLAY_WIDTH = 64 := rfl
    have hh : DISPLAY_HEIGHT = 32 := rfl
    rw [hw, hh] at heq
    rw [hw] at hq
    rw [hw] at hq2
    omega

/-- Pointwise description of the wrapped blit. -/
theorem draw_sprite_getElem? (p : List Bool) (px0 py0 : Nat) (sprite : List Nat)
    (hlen : sprite.length ≤ 32) (j : Nat) :
    (draw_sprite p px0 py0 sprite).1[j]?
    = (p[j]?).map fun b => xor b (hitMask (spriteHits px0 py0 sprite) j) := by
  rw [draw_sprite_eq_drawFold]
  exact (drawFold_spec _ p false (spriteHitsAux_keys_nodup px0 py0 sprite 0 hlen)).1 j

/-- Collision flag of the wrapped blit. -/
theorem draw_sprite_snd (p : List Bool) (px0 py0 : Nat) (sprite : List Nat)
    (hlen : sprite.length ≤ 32) :
    (draw_sprite p px0 py0 sprite).2 = collides p (spriteHits px0 py0 sprite) := by
  rw [draw_sprite_eq_drawFold]
  have := (drawFold_spec _ p false (spriteHitsAux_keys_nodup px0 py0 sprite 0 hlen)).2
  simpa using this

/-- Pointwise description of the clipped blit. -/
theorem draw_sprite_clipped_getElem? (p : List Bool) (px0 py0 : Nat) (sprite : List Nat)
    (hlen : sprite.length ≤ 32) (j : Nat) :
    (draw_sprite_clipped p px0 py0 sprite).1[j]?
    = (p[j]?).map fun b => xor b (hitMask (spriteHitsClipped px0 py0 sprite) j) := by
  rw [draw_sprite_clipped_eq_drawFold]
  exact (drawFold_spec _ p false
    (spriteHitsClippedAux_keys_nodup px0 py0 sprite 0 hlen)).1 j

/-- Collision flag of the clipped blit. -/
theorem draw_sprite_clipped_snd (p : List Bool) (px0 py0 : Nat) (sprite : List Nat)
    (hlen : sprite.length ≤ 32) :
    (draw_sprite_clipped p px0 py0 sprite).2
    = collides p (spriteHitsClipped px0 py0 sprite) := by
  rw [draw_sprite_clipped_eq_drawFold]
  have := (drawFold_spec _ p false
    (spriteHitsClippedAux_keys_nodup px0 py0 sprite 0 hlen)).2
  simpa using this

theorem mem_rowHits {px0 py d : Nat} {pr : Nat × Bool} :
    pr ∈ rowHits px0 py d ↔
      ∃ b < 8, pr = (DISPLAY_WIDTH * py + (px0 + b) % DISPLAY_WIDTH, bit_at d (7 - b)) := by
  simp only [rowHits, List.mem_map, List.mem_range]
  constructor
  · rintro ⟨b, hb, rfl⟩; exact ⟨b, hb, rfl⟩
  · rintro ⟨b, hb, rfl⟩; exact ⟨b, hb, rfl⟩

theorem mem_rowHitsClipped {px0 py d : Nat} {pr : Nat × Bool} :
    pr ∈ rowHitsClipped px0 py d ↔
      ∃ b < 8, px0 % DISPLAY_WIDTH + b < DISPLAY_WIDTH ∧
        pr = (DISPLAY_WIDTH * py + (px0 % DISPLAY_WIDTH + b), bit_at d (7 - b)) := by
  simp only [rowHitsClipped, List.mem_map, List.mem_filter, List.mem_range]
  constructor
  · rintro ⟨b, ⟨hb, hq⟩, rfl⟩
    exact ⟨b, hb, by simpa using hq, rfl⟩
  · rintro ⟨b, hb, hq, rfl⟩
    exact ⟨b, ⟨hb, by simpa using hq⟩, rfl⟩

theorem mem_spriteHitsAux {px0 py0 : Nat} {rows : List Nat} {r0 : Nat} {pr : Nat × Bool} :
    pr ∈ spriteHitsAux px0 py0 rows r0 ↔
      ∃ r < rows.length, ∃ b < 8,
        pr = (DISPLAY_WIDTH * ((py0 + (r0 + r)) % DISPLAY_HEIGHT) +
                (px0 + b) % DISPLAY_WIDTH,
              bit_at (rows.getD r 0) (7 - b)) := by
  induction rows generalizing r0 with
  | nil => simp [spriteHitsAux]
  | cons d ds ih =>
    simp only [spriteHitsAux, List.mem_append, ih, mem_rowHits, List.length_cons]
    constructor
    · rintro (⟨b, hb, rfl⟩ | ⟨r, hr, b, hb, rfl⟩)
      · exact ⟨0, by omega, b, hb, by simp⟩
      · refine ⟨r + 1, by omega, b, hb, ?_⟩
        have h1 : r0 + 1 + r = r0 + (r + 1) := by omega
        have h2 : ds.getD r 0 = (d :: ds).getD (r + 1) 0 := rfl
        rw [h1, h2]
    · rintro ⟨r, hr, b, hb, rfl⟩
      cases r with
      | zero => exact Or.inl ⟨b, hb, by simp⟩
      | succ r =>
        refine Or.inr ⟨r, by omega, b, hb, ?_⟩
        have h1 : r0 + 1 + r = r0 + (r + 1) := by omega
        have h2 : ds.getD r 0 = (d :: ds).getD (r + 1) 0 := rfl
        rw [h1, h2]

theorem mem_spriteHitsClippedAux {px0 py0 : Nat} {rows : List Nat} {r0 : Nat}
    {pr : Nat × Bool} :
    pr ∈ spriteHitsClippedAux px0 py0 rows r0 ↔
      ∃ r < rows.length, ∃ b < 8, px0 % DISPLAY_WIDTH + b < DISPLAY_WIDTH ∧
        pr = (DISPLAY_WIDTH * ((py0 % DISPLAY_HEIGHT + (r0 + r)) % DISPLAY_HEIGHT) +
                (px0 % DISPLAY_WIDTH + b),
              bit_at (rows.getD r 0) (7 - b)) := by
  induction rows generalizing r0 with
  | nil => simp [spriteHitsClippedAux]
  | cons d ds ih =>
    simp only [spriteHitsClippedAux, List.mem_append, ih, mem_rowHitsClipped,
      List.length_cons]
    constructor
    · rintro (⟨b, hb, hq, rfl⟩ | ⟨r, hr, b, hb, hq, rfl⟩)
      · exact ⟨0, by omega, b, hb, hq, by simp⟩
      · refine ⟨r + 1, by omega, b, hb, hq, ?_⟩
        have h1 : r0 + 1 + r = r0 + (r + 1) := by omega
        have h2 : ds.getD r 0 = (d :: ds).getD (r + 1) 0 := rfl
        rw [h1, h2]
    · rintro ⟨r, hr, b, hb, hq, rfl⟩
      cases r with
      | zero => exact Or.inl ⟨b, hb, hq, by simp⟩
      | succ r =>
        refine Or.inr ⟨r, by omega, b, hb, hq, ?_⟩
        have h1 : r0 + 1 + r = r0 + (r + 1) := by omega
        have h2 : ds.getD r 0 = (d :: ds).getD (r + 1) 0 := rfl
        rw [h1, h2]

/-- The collision flag of the wrapped blit in terms of rows and bits. -/
theorem collides_spriteHits_iff (p : List Bool) (px0 py0 : Nat) (sprite : List Nat) :
    collides p (spriteHits px0 py0 sprite) = true ↔
      ∃ r < sprite.length, ∃ b < 8,
        bit_at (sprite.getD r 0) (7 - b) = true ∧
        p.getD (DISPLAY_WIDTH * ((py0 + r) % DISPLAY_HEIGHT) +
          (px0 + b) % DISPLAY_WIDTH) false = true := by
  simp only [collides, List.any_eq_true, spriteHits]
  constructor
  · rintro ⟨pr, hpr, hcond⟩
    rw [mem_spriteHitsAux] at hpr
    obtain ⟨r, hr, b, hb, rfl⟩ := hpr
    simp only [Bool.and_eq_true] at hcond
    exact ⟨r, hr, b, hb, hcond.1, by simpa using hcond.2⟩
  · rintro ⟨r, hr, b, hb, hbit, hlit⟩
    refine ⟨_, mem_spriteHitsAux.mpr ⟨r, hr, b, hb, rfl⟩, ?_⟩
    simp only [Bool.and_eq_true]
    exact ⟨hbit, by simpa using hlit⟩

/-- The collision flag of the clipped blit in terms of rows and bits. -/
theorem collides_spriteHitsClipped_iff (p : List Bool) (px0 py0 : Nat) (sprite : List Nat) :
    collides p (spriteHitsClipped px0 py0 sprite) = true ↔
      ∃ r < sprite.length, ∃ b < 8, px0 % DISPLAY_WIDTH + b < DISPLAY_WIDTH ∧
        bit_at (sprite.getD r 0) (7 - b) = true ∧
        p.getD (DISPLAY_WIDTH * ((py0 % DISPLAY_HEIGHT + r) % DISPLAY_HEIGHT) +
          (px0 % DISPLAY_WIDTH + b)) false = true := by
  simp only [collides, List.any_eq_true, spriteHitsClipped]
  constructor
  · rintro ⟨pr, hpr, hcond⟩
    rw [mem_spriteHitsClippedAux] at hpr
    obtain ⟨r, hr, b, hb, hq, rfl⟩ := hpr
    simp only [Bool.and_eq_true] at hcond
    exact ⟨r, hr, b, hb, hq, hcond.1, by simpa using hcond.2⟩
  · rintro ⟨r, hr, b, hb, hq, hbit, hlit⟩
    refine ⟨_, mem_spriteHitsClippedAux.mpr ⟨r, hr, b, hb, hq, rfl⟩, ?_⟩
    simp only [Bool.and_eq_true]
    exact ⟨hbit, by simpa using hlit⟩

/-- The toggle mask of the wrapped blit in terms of rows and bits. -/
theorem hitMask_spriteHits_iff (px0 py0 : Nat) (sprite : List Nat) (j : Nat) :
    hitMask (spriteHits px0 py0 sprite) j = true ↔
      ∃ r < sprite.length, ∃ b < 8,
        j = DISPLAY_WIDTH * ((py0 + r) % DISPLAY_HEIGHT) + (px0 + b) % DISPLAY_WIDTH ∧
        bit_at (sprite.getD r 0) (7 - b) = true := by
  simp only [hitMask, List.any_eq_true, spriteHits]
  constructor
  · rintro ⟨pr, hpr, hcond⟩
    rw [mem_spriteHitsAux] at hpr
    obtain ⟨r, hr, b, hb, rfl⟩ := hpr
    simp only [Bool.and_eq_true, beq_iff_eq] at hcond
    exact ⟨r, hr, b, hb, by simpa using hcond.1.symm, hcond.2⟩
  · rintro ⟨r, hr, b, hb, rfl, hbit⟩
    refine ⟨_, mem_spriteHitsAux.mpr ⟨r, hr, b, hb, rfl⟩, ?_⟩
    simp only [Bool.and_eq_true, beq_iff_eq]
    exact ⟨by simp, hbit⟩

/-- The toggle mask of the clipped blit in terms of rows and bits. -/
theorem hitMask_spriteHitsClipped_iff (px0 py0 : Nat) (sprite : List Nat) (j : Nat) :
    hitMask (spriteHitsClipped px0 py0 sprite) j = true ↔
      ∃ r < sprite.length, ∃ b < 8, px0 % DISPLAY_WIDTH + b < DISPLAY_WIDTH ∧
        j = DISPLAY_WIDTH * ((py0 % DISPLAY_HEIGHT + r) % DISPLAY_HEIGHT) +
          (px0 % DISPLAY_WIDTH + b) ∧
        bit_at (sprite.getD r 0) (7 - b) = true := by
  simp only [hitMask, List.any_eq_true, spriteHitsClipped]
  constructor
  · rintro ⟨pr, hpr, hcond⟩
    rw [mem_spriteHitsClippedAux] at hpr
    obtain ⟨r, hr, b, hb, hq, rfl⟩ := hpr
    simp only [Bool.and_eq_true, beq_iff_eq] at hcond
    exact ⟨r, hr, b, hb, hq, by simpa using hcond.1.symm, hcond.2⟩
  · rintro ⟨r, hr, b, hb, hq, rfl, hbit⟩
    refine ⟨_, mem_spriteHitsClippedAux.mpr ⟨r, hr, b, hb, hq, rfl⟩, ?_⟩
    simp only [Bool.and_eq_true, beq_iff_eq]
    exact ⟨by simp, hbit⟩

/-- Blitting the same sprite at the same origin twice is the identity on
the pixel buffer. -/
theorem draw_sprite_involutive (p : List Bool) (px0 py0 : Nat) (sprite : List Nat)
    (hlen : sprite.length ≤ 32) :
    (draw_sprite (draw_sprite p px0 py0 sprite).1 px0 py0 sprite).1 = p := by
  apply List.ext_getElem?
  intro j
  rw [draw_sprite_getElem? _ px0 py0 sprite hlen j,
    draw_sprite_getElem? p px0 py0 sprite hlen j]
  cases p[j]? with
  | none => rfl
  | some b => simp [Bool.xor_assoc]

theorem bool_eq_decide {b : Bool} {P : Prop} [Decidable P] (h : b = true ↔ P) :
    b = decide P := by
  by_cases hp : P
  · have h1 : b = true := h.mpr hp
    have h2 : decide P = true := decide_eq_true hp
    rw [h1, h2]
  · have h1 : b = false := Bool.not_eq_true b |>.mp fun hb2 => hp (h.mp hb2)
    have h2 : decide P = false := decide_eq_false hp
    rw [h1, h2]

/-- C5: For every sprite of 1 to 15 rows and every origin, blitting the
same sprite twice at the same origin leaves the pixel buffer bitwise
unchanged, and the second blit returns collision = true exactly when some
1 sprite bit overlaps a pixel that is set after the first blit
(a previously-set bit from the second call's point of view); in
particular, starting from a cleared 2048-pixel buffer the second
identical draw collides iff the sprite has any set bit, and restores
the cleared buffer. -/
theorem xor_blit_self_inverse (p : List Bool) (px0 py0 : Nat) (sprite : List Nat)
    (h1 : 1 ≤ sprite.length) (h15 : sprite.length ≤ 15) :
    (draw_sprite (draw_sprite p px0 py0 sprite).1 px0 py0 sprite).1 = p ∧
    ((draw_sprite (draw_sprite p px0 py0 sprite).1 px0 py0 sprite).2 = true ↔
      ∃ r < sprite.length, ∃ b < 8,
        bit_at (sprite.getD r 0) (7 - b) = true ∧
        (draw_sprite p px0 py0 sprite).1.getD
          (64 * ((py0 + r) % 32) + (px0 + b) % 64) false = true) ∧
    (p = List.replicate 2048 false →
      ((draw_sprite (draw_sprite p px0 py0 sprite).1 px0 py0 sprite).2 = true ↔
        ∃ r < sprite.length, ∃ b < 8, bit_at (sprite.getD r 0) (7 - b) = true) ∧
      (draw_sprite (draw_sprite p px0 py0 sprite).1 px0 py0 sprite).1
        = List.replicate 2048 false) := by
  have h32 : sprite.length ≤ 32 := by omega
  have hW : DISPLAY_WIDTH = 64 := rfl
  have hH : DISPLAY_HEIGHT = 32 := rfl
  have hinv := draw_sprite_involutive p px0 py0 sprite h32
  have hsnd := draw_sprite_snd (draw_sprite p px0 py0 sprite).1 px0 py0 sprite h32
  have hiff := collides_spriteHits_iff (draw_sprite p px0 py0 sprite).1 px0 py0 sprite
  rw [hW, hH] at hiff
  refine ⟨hinv, by rw [hsnd]; exact hiff, ?_⟩
  intro hcleared
  subst hcleared
  refine ⟨?_, hinv⟩
  rw [hsnd]
  rw [hiff]
  constructor
  · rintro ⟨r, hr, b, hb, hbit, _⟩
    exact ⟨r, hr, b, hb, hbit⟩
  · rintro ⟨r, hr, b, hb, hbit⟩
    refine ⟨r, hr, b, hb, hbit, ?_⟩
    set key := 64 * ((py0 + r) % 32) + (px0 + b) % 64 with hkeydef
    have hkeylt : key < 2048 := by
      have hy : (py0 + r) % 32 < 32 := Nat.mod_lt _ (by omega)
      have hx : (px0 + b) % 64 < 64 := Nat.mod_lt _ (by omega)
      omega
    have hfst := draw_sprite_getElem? (List.replicate 2048 false) px0 py0 sprite h32 key
    have hbase : (List.replicate 2048 false)[key]? = some false := by
      rw [List.getElem?_replicate, if_pos hkeylt]
    have hmask : hitMask (spriteHits px0 py0 sprite) key = true := by
      rw [hitMask_spriteHits_iff]
      rw [hW, hH]
      exact ⟨r, hr, b, hb, hkeydef, hbit⟩
    rw [hbase, hmask] at hfst
    rw [List.getD_eq_getElem?_getD, hfst]
    rfl

/-- Witness for C5 at the font glyph for 0 on a cleared buffer. -/
theorem xor_blit_self_inverse_witness :
    (1 ≤ ([0xF0, 0x90, 0x90, 0x90, 0xF0] : List Nat).length) ∧
    (draw_sprite
        (draw_sprite (List.replicate 2048 false) 0 0 [0xF0, 0x90, 0x90, 0x90, 0xF0]).1
        0 0 [0xF0, 0x90, 0x90, 0x90, 0xF0]).1
      = List.replicate 2048 false :=
  ⟨by decide,
    (xor_blit_self_inverse (List.replicate 2048 false) 0 0
      [0xF0, 0x90, 0x90, 0x90, 0xF0] (by decide) (by decide)).1⟩

/-! ## Decoder facts -/

theorem parse_opcode_8_ne_Draw {w : Nat} {a b : Fin 16} {c : Nat} :
    parse_opcode_8 w ≠ some (.Draw a b c) := by
  unfold parse_opcode_8
  split <;> simp

theorem parse_opcode_e_ne_Draw {w : Nat} {a b : Fin 16} {c : Nat} :
    parse_opcode_e w ≠ some (.Draw a b c) := by
  unfold parse_opcode_e
  split <;> simp

theorem parse_opcode_f_ne_Draw {w : Nat} {a b : Fin 16} {c : Nat} :
    parse_opcode_f w ≠ some (.Draw a b c) := by
  unfold parse_opcode_f
  split <;> simp

/-- A decoded DXYN always carries a nibble row count. -/
theorem parse_opcode_Draw_cnt_le {w : Nat} {a b : Fin 16} {c : Nat}
    (h : parse_opcode w = some (.Draw a b c)) : c ≤ 15 := by
  unfold parse_opcode at h
  repeat' split at h
  all_goals try exact absurd h parse_opcode_8_ne_Draw
  all_goals try exact absurd h parse_opcode_e_ne_Draw
  all_goals try exact absurd h parse_opcode_f_ne_Draw
  all_goals try exact Option.noConfusion h
  all_goals injection h with h2
  all_goals try exact Instr.noConfusion h2
  injection h2 with h3 h4 h5
  rw [← h5]
  exact Nat.and_le_right

/-- C4: Executing DXYN reads the n-byte sprite at memory[I..I+n) and blits
it at origin (Vx, Vy): sprite row r targets display row (Vy + r) mod 32;
bit b of the row byte (bit 7 − b of its value) is XORed into target column
(Vx + b) mod 64 when quirk DRAW_WRAPS_PIXELS is on, and is skipped when
out of range when the quirk is off; VF is set to 1 iff at least one pixel
transitioned from 1 to 0 during the blit, else 0. -/
theorem draw_instruction_semantics
    (s : System) (rb : Nat) (kp : Option (Fin 16)) (w : Nat)
    (xr yr : Fin 16) (cnt : Nat) (bytes : List Nat)
    (hw : read_u16 s.memory s.cpu.pc = some w)
    (hp : parse_opcode w = some (.Draw xr yr cnt))
    (hb : read_slice s.memory s.cpu.i cnt = some bytes) :
    (execute_next_inst s rb kp).2 = none ∧
    bytes = (s.memory.drop s.cpu.i).take cnt ∧
    bytes.length = cnt ∧
    (s.quirks.draw_wraps_pixels = true →
      (∀ j, (execute_next_inst s rb kp).1.display[j]?
        = (s.display[j]?).map fun bb =>
            xor bb (hitMask (spriteHits (s.cpu.v xr) (s.cpu.v yr) bytes) j)) ∧
      (∀ j, hitMask (spriteHits (s.cpu.v xr) (s.cpu.v yr) bytes) j = true ↔
        ∃ r < cnt, ∃ bi < 8,
          j = 64 * ((s.cpu.v yr + r) % 32) + (s.cpu.v xr + bi) % 64 ∧
          bit_at (bytes.getD r 0) (7 - bi) = true) ∧
      ((execute_next_inst s rb kp).1.cpu.v VF = 1 ↔
        ∃ r < cnt, ∃ bi < 8,
          bit_at (bytes.getD r 0) (7 - bi) = true ∧
          s.display.getD (64 * ((s.cpu.v yr + r) % 32) + (s.cpu.v xr + bi) % 64)
            false = true) ∧
      ((execute_next_inst s rb kp).1.cpu.v VF = 1 ∨
        (execute_next_inst s rb kp).1.cpu.v VF = 0)) ∧
    (s.quirks.draw_wraps_pixels = false →
      (∀ j, (execute_next_inst s rb kp).1.display[j]?
        = (s.display[j]?).map fun bb =>
            xor bb (hitMask (spriteHitsClipped (s.cpu.v xr) (s.cpu.v yr) bytes) j)) ∧
      (∀ j, hitMask (spriteHitsClipped (s.cpu.v xr) (s.cpu.v yr) bytes) j = true ↔
        ∃ r < cnt, ∃ bi < 8, s.cpu.v xr % 64 + bi < 64 ∧
          j = 64 * ((s.cpu.v yr + r) % 32) + (s.cpu.v xr % 64 + bi) ∧
          bit_at (bytes.getD r 0) (7 - bi) = true) ∧
      ((execute_next_inst s rb kp).1.cpu.v VF = 1 ↔
        ∃ r < cnt, ∃ bi < 8, s.cpu.v xr % 64 + bi < 64 ∧
          bit_at (bytes.getD r 0) (7 - bi) = true ∧
          s.display.getD (64 * ((s.cpu.v yr + r) % 32) + (s.cpu.v xr % 64 + bi))
            false = true) ∧
      ((execute_next_inst s rb kp).1.cpu.v VF = 1 ∨
        (execute_next_inst s rb kp).1.cpu.v VF = 0)) := by
  have hW : DISPLAY_WIDTH = 64 := rfl
  have hH : DISPLAY_HEIGHT = 32 := rfl
  have hcnt15 : cnt ≤ 15 := parse_opcode_Draw_cnt_le hp
  have hbytes : bytes = (s.memory.drop s.cpu.i).take cnt ∧ bytes.length = cnt := by
    unfold read_slice at hb
    split at hb
    · injection hb with hb2
      subst hb2
      refine ⟨rfl, ?_⟩
      rw [List.length_take, List.length_drop]
      omega
    · exact Option.noConfusion hb
  have hblen32 : bytes.length ≤ 32 := by omega
  have hstep : execute_next_inst s rb kp = exec_instr s (.Draw xr yr cnt) rb kp := by
    simp only [execute_next_inst, hw, hp]
  have hrow : ∀ r : Nat,
      (s.cpu.v yr % DISPLAY_HEIGHT + r) % DISPLAY_HEIGHT
        = (s.cpu.v yr + r) % DISPLAY_HEIGHT := by
    intro r
    rw [hH]
    omega
  refine ⟨?_, hbytes.1, hbytes.2, ?_, ?_⟩
  · rw [hstep]
    simp only [exec_instr, hb]
  · intro hq
    have hres : execute_next_inst s rb kp
        = (inc_pc { s with
            display := (draw_sprite_wrapped s.display (s.cpu.v xr) (s.cpu.v yr) bytes).1,
            cpu := { s.cpu with v := Function.update s.cpu.v VF (if (draw_sprite_wrapped s.display (s.cpu.v xr) (s.cpu.v yr) bytes).2 then 1 else 0) } },
           none) := by
      rw [hstep]
      simp only [exec_instr, hb, hq]
      rfl
    have hmaskiff : ∀ j, hitMask (spriteHits (s.cpu.v xr) (s.cpu.v yr) bytes) j = true ↔
        ∃ r < cnt, ∃ bi < 8,
          j = 64 * ((s.cpu.v yr + r) % 32) + (s.cpu.v xr + bi) % 64 ∧
          bit_at (bytes.getD r 0) (7 - bi) = true := by
      intro j
      rw [hitMask_spriteHits_iff]
      rw [hW, hH, hbytes.2]
    have hcoliff : (draw_sprite_wrapped s.display (s.cpu.v xr) (s.cpu.v yr) bytes).2
        = true ↔
        ∃ r < cnt, ∃ bi < 8,
          bit_at (bytes.getD r 0) (7 - bi) = true ∧
          s.display.getD (64 * ((s.cpu.v yr + r) % 32) + (s.cpu.v xr + bi) % 64)
            false = true := by
      unfold draw_sprite_wrapped
      rw [draw_sprite_snd s.display (s.cpu.v xr) (s.cpu.v yr) bytes hblen32]
      rw [collides_spriteHits_iff]
      rw [hW, hH, hbytes.2]
    have hVF : (execute_next_inst s rb kp).1.cpu.v VF
        = (if (draw_sprite_wrapped s.display (s.cpu.v xr) (s.cpu.v yr) bytes).2
           then 1 else 0) := by
      rw [hres]
      exact Function.update_same VF _ s.cpu.v
    refine ⟨?_, hmaskiff, ?_, ?_⟩
    · intro j
      rw [hres]
      show (draw_sprite_wrapped s.display (s.cpu.v xr) (s.cpu.v yr) bytes).1[j]? = _
      unfold draw_sprite_wrapped
      exact draw_sprite_getElem? s.display (s.cpu.v xr) (s.cpu.v yr) bytes hblen32 j
    · rw [hVF, ← hcoliff]
      cases (draw_sprite_wrapped s.display (s.cpu.v xr) (s.cpu.v yr) bytes).2 <;> simp
    · rw [hVF]
      cases (draw_sprite_wrapped s.display (s.cpu.v xr) (s.cpu.v yr) bytes).2 <;> simp
  · intro hq
    have hres : execute_next_inst s rb kp
        = (inc_pc { s with
            display := (draw_sprite_clipped s.display (s.cpu.v xr) (s.cpu.v yr) bytes).1,
            cpu := { s.cpu with v := Function.update s.cpu.v VF (if (draw_sprite_clipped s.display (s.cpu.v xr) (s.cpu.v yr) bytes).2 then 1 else 0) } },
           none) := by
      rw [hstep]
      simp only [exec_instr, hb, hq]
      rfl
    have hmaskiff : ∀ j,
        hitMask (spriteHitsClipped (s.cpu.v xr) (s.cpu.v yr) bytes) j = true ↔
        ∃ r < cnt, ∃ bi < 8, s.cpu.v xr % 64 + bi < 64 ∧
          j = 64 * ((s.cpu.v yr + r) % 32) + (s.cpu.v xr % 64 + bi) ∧
          bit_at (bytes.getD r 0) (7 - bi) = true := by
      intro j
      rw [hitMask_spriteHitsClipped_iff]
      simp only [hrow]
      rw [hW, hH, hbytes.2]
    have hcoliff : (draw_sprite_clipped s.display (s.cpu.v xr) (s.cpu.v yr) bytes).2
        = true ↔
        ∃ r < cnt, ∃ bi < 8, s.cpu.v xr % 64 + bi < 64 ∧
          bit_at (bytes.getD r 0) (7 - bi) = true ∧
          s.display.getD (64 * ((s.cpu.v yr + r) % 32) + (s.cpu.v xr % 64 + bi))
            false = true := by
      rw [draw_sprite_clipped_snd s.display (s.cpu.v xr) (s.cpu.v yr) bytes hblen32]
      rw [collides_spriteHitsClipped_iff]
      simp only [hrow]
      rw [hW, hH, hbytes.2]
    have hVF : (execute_next_inst s rb kp).1.cpu.v VF
        = (if (draw_sprite_clipped s.display (s.cpu.v xr) (s.cpu.v yr) bytes).2
           then 1 else 0) := by
      rw [hres]
      exact Function.update_same VF _ s.cpu.v
    refine ⟨?_, hmaskiff, ?_, ?_⟩
    · intro j
      rw [hres]
      show (draw_sprite_clipped s.display (s.cpu.v xr) (s.cpu.v yr) bytes).1[j]? = _
      exact draw_sprite_clipped_getElem? s.display (s.cpu.v xr) (s.cpu.v yr) bytes hblen32 j
    · rw [hVF, ← hcoliff]
      cases (draw_sprite_clipped s.display (s.cpu.v xr) (s.cpu.v yr) bytes).2 <;> simp
    · rw [hVF]
      cases (draw_sprite_clipped s.display (s.cpu.v xr) (s.cpu.v yr) bytes).2 <;> simp

/-- Witness for C4: a DXYN at PC 0 drawing a 2-row sprite. -/
theorem draw_instruction_semantics_witness :
    parse_opcode 0xD012 = some (.Draw 0 1 2) ∧
    (execute_next_inst (mkSys [0xD0, 0x12, 0xF0, 0x90]) 0 none).2 = none :=
  ⟨by decide,
    (draw_instruction_semantics (mkSys [0xD0, 0x12, 0xF0, 0x90]) 0 none 0xD012 0 1 2
      [0xD0, 0x12] (by decide) (by decide) (by decide)).1⟩

theorem parse_opcode_8_wf {w : Nat} {op : Instr} (h : parse_opcode_8 w = some op) :
    instr_wf op := by
  unfold parse_opcode_8 at h
  split at h <;> first
    | exact Option.noConfusion h
    | (injection h with h2; subst h2; trivial)

theorem parse_opcode_e_wf {w : Nat} {op : Instr} (h : parse_opcode_e w = some op) :
    instr_wf op := by
  unfold parse_opcode_e at h
  split at h <;> first
    | exact Option.noConfusion h
    | (injection h with h2; subst h2; trivial)

theorem parse_opcode_f_wf {w : Nat} {op : Instr} (h : parse_opcode_f w = some op) :
    instr_wf op := by
  unfold parse_opcode_f at h
  split at h <;> first
    | exact Option.noConfusion h
    | (injection h with h2; subst h2; trivial)

/-- Every operand produced by the decoder is within its bit-field range. -/
theorem parse_opcode_instr_wf {w : Nat} {op : Instr}
    (h : parse_opcode w = some op) : instr_wf op := by
  unfold parse_opcode at h
  repeat' split at h
  all_goals try exact parse_opcode_8_wf h
  all_goals try exact parse_opcode_e_wf h
  all_goals try exact parse_opcode_f_wf h
  all_goals try exact Option.noConfusion h
  all_goals injection h with h2
  all_goals subst h2
  all_goals try trivial
  all_goals exact Nat.and_le_right

/-! ## C1: CALL / RET -/

/-- C1 is false on the code: executing `CALL 0x300` stored at address 0
pushes 0x000 (the address of the CALL itself), not 0x002 = PC+2; and
executing `RET` with 0x300 on the stack sets PC to 0x302, not to the
popped address 0x300 (the pop is followed by the common +2 advance). -/
theorem call_pushes_pc_counterexample :
    ((execute_next_inst (mkSys [0x23, 0x00]) 0 none).1.cpu.stack = [0x000]) ∧
    ¬ ((execute_next_inst (mkSys [0x23, 0x00]) 0 none).1.cpu.stack = [0x002]) ∧
    ((execute_next_inst
        { mkSys [0x00, 0xEE] with
          cpu := { (mkSys [0x00, 0xEE]).cpu with stack := [0x300] } } 0 none).1.cpu.pc
      = 0x302) ∧
    ¬ ((execute_next_inst
        { mkSys [0x00, 0xEE] with
          cpu := { (mkSys [0x00, 0xEE]).cpu with stack := [0x300] } } 0 none).1.cpu.pc
      = 0x300) := by
  refine ⟨by decide, by decide, by decide, by decide⟩

/-- C1 (amended): when CALL NNN executes at address p with stack depth
< 16, the value p itself (not p+2) is pushed and PC becomes NNN; when RET
executes with a non-empty stack, PC becomes the popped address plus 2
(the pop is followed by the common two-byte advance, wrapping 16-bit).
The net effect of a CALL at p followed by the matching RET is that
execution resumes at p+2. -/
theorem call_ret_semantics (s : System) (rb : Nat) (kp : Option (Fin 16)) (w : Nat)
    (hw : read_u16 s.memory s.cpu.pc = some w) :
    (∀ nnnv, parse_opcode w = some (.Call nnnv) → s.cpu.stack.length < 16 →
      execute_next_inst s rb kp
        = ({ s with cpu := { s.cpu with pc := nnnv, stack := s.cpu.pc :: s.cpu.stack } },
           none)) ∧
    (∀ a rest, parse_opcode w = some .Return → s.cpu.stack = a :: rest →
      execute_next_inst s rb kp
        = ({ s with cpu := { s.cpu with pc := (a + 2) % 65536, stack := rest } }, none)) := by
  constructor
  · intro nnnv hp hlen
    simp only [execute_next_inst, hw, hp, exec_instr]
    rw [if_neg (by omega)]
  · intro a rest hp hstk
    simp only [execute_next_inst, hw, hp, exec_instr, hstk]
    rfl

/-- Witness for C1 (amended): `CALL 0x300` at PC 0 pushes 0 and jumps. -/
theorem call_ret_semantics_witness :
    execute_next_inst (mkSys [0x23, 0x00]) 0 none
      = ({ mkSys [0x23, 0x00] with
           cpu := { (mkSys [0x23, 0x00]).cpu with pc := 0x300, stack := [0x000] } },
         none) :=
  (call_ret_semantics (mkSys [0x23, 0x00]) 0 none 0x2300 (by decide)).1 0x300
    (by decide) (by decide)

/-! ## C7: stack underflow / overflow -/

set_option maxRecDepth 8000 in
/-- C7: RET with an empty call stack terminates with StackUnderflow;
CALL with a 16-deep stack terminates with StackOverflow and leaves the
state (in particular the stack, at depth 16) unchanged; a successful CALL
grows the stack by exactly one, so the depth never exceeds 16; and in the
seventeen-consecutive-CALL scenario ROM, the run terminates on the 17th
CALL with StackOverflow and stack size 16. -/
theorem stack_underflow_overflow (s : System) (rb : Nat) (kp : Option (Fin 16))
    (w : Nat) (hw : read_u16 s.memory s.cpu.pc = some w) :
    (parse_opcode w = some .Return → s.cpu.stack = [] →
      execute_next_inst s rb kp = (s, some .StackUnderflow)) ∧
    (∀ nnnv, parse_opcode w = some (.Call nnnv) → 16 ≤ s.cpu.stack.length →
      execute_next_inst s rb kp = (s, some .StackOverflow)) ∧
    (∀ nnnv, parse_opcode w = some (.Call nnnv) → s.cpu.stack.length < 16 →
      (execute_next_inst s rb kp).1.cpu.stack.length = s.cpu.stack.length + 1) ∧
    ((run overflowStart 0 none 17).2 = some .StackOverflow ∧
      (run overflowStart 0 none 17).1.cpu.stack.length = 16) := by
  refine ⟨?_, ?_, ?_, by decide, by decide⟩
  · intro hp hstk
    simp only [execute_next_inst, hw, hp, exec_instr, hstk]
  · intro nnnv hp hlen
    simp only [execute_next_inst, hw, hp, exec_instr]
    rw [if_pos hlen]
  · intro nnnv hp hlen
    simp only [execute_next_inst, hw, hp, exec_instr]
    rw [if_neg (by omega)]
    rfl

/-- Witness for C7: RET at PC 0 with an empty stack underflows. -/
theorem stack_underflow_overflow_witness :
    execute_next_inst (mkSys [0x00, 0xEE]) 0 none
      = (mkSys [0x00, 0xEE], some .StackUnderflow) :=
  (stack_underflow_overflow (mkSys [0x00, 0xEE]) 0 none 0x00EE (by decide)).1
    (by decide) rfl

/-! ## C8: range of PC after execution -/

theorem update_lt {f : Fin 16 → Nat} (hf : ∀ j, f j < 256) {a : Fin 16} {b : Nat}
    (hb : b < 256) : ∀ j, Function.update f a b j < 256 := by
  intro j
  rw [Function.update_apply]
  split
  · exact hb
  · exact hf j

theorem write_slice_length (m : List Nat) (addr : Nat) (data : List Nat) :
    (write_slice m addr data).length = m.length := by
  induction data generalizing m addr with
  | nil => rfl
  | cons d ds ih =>
    show (write_slice (m.set addr d) (addr + 1) ds).length = m.length
    rw [ih, List.length_set]

theorem mem_write_slice {m : List Nat} {addr : Nat} {data : List Nat} {b : Nat}
    (h : b ∈ write_slice m addr data) : b ∈ m ∨ b ∈ data := by
  induction data generalizing m addr with
  | nil => exact Or.inl h
  | cons d ds ih =>
    rcases ih h with h2 | h2
    · rcases List.mem_or_eq_of_mem_set h2 with h3 | h3
      · exact Or.inl h3
      · exact Or.inr (h3 ▸ List.mem_cons_self d ds)
    · exact Or.inr (List.mem_cons_of_mem d h2)

theorem getD_lt_of_forall {l : List Nat} (hl : ∀ b ∈ l, b < 256) (j : Nat) :
    l.getD j 0 < 256 := by
  rw [List.getD_eq_getElem?_getD]
  cases hg : l[j]? with
  | none => simp
  | some a =>
    obtain ⟨hlt, rfl⟩ := List.getElem?_eq_some_iff.mp hg
    simpa using hl _ (List.getElem_mem hlt)

theorem shiftRight_one_le (a : Nat) : a >>> 1 ≤ a := by
  rw [Nat.shiftRight_eq_div_pow]
  exact Nat.div_le_self a (2 ^ 1)

theorem ite_one_zero_lt {c : Prop} [Decidable c] : (if c then (1 : Nat) else 0) < 256 := by
  split <;> omega

/-- C8 is false on the code: executing the CLS stored at 0xFFE succeeds
and leaves PC = 0x1000, outside the claimed range [0x000, 0xFFE]. -/
theorem pc_range_counterexample :
    (execute_next_inst topState 0 none).2 = none ∧
    (execute_next_inst topState 0 none).1.cpu.pc = 0x1000 ∧
    ¬ ((execute_next_inst topState 0 none).1.cpu.pc ≤ 0xFFE) := by
  have h1 : topState.memory[(0xFFE : Nat)]? = some 0x00 := by
    show ((List.replicate 4094 0 ++ [0x00, 0xE0]) : List Nat)[(4094 : Nat)]? = some 0x00
    rw [List.getElem?_append_right (by rw [List.length_replicate])]
    rw [List.length_replicate]
    norm_num
  have h2 : topState.memory[(0xFFF : Nat)]? = some 0xE0 := by
    show ((List.replicate 4094 0 ++ [0x00, 0xE0]) : List Nat)[(4095 : Nat)]? = some 0xE0
    rw [List.getElem?_append_right (by rw [List.length_replicate]; norm_num)]
    rw [List.length_replicate]
    norm_num
  have hr : read_u16 topState.memory topState.cpu.pc = some 0x00E0 := by
    show read_u16 topState.memory 0xFFE = some 0x00E0
    unfold read_u16
    rw [show (0xFFE : Nat) + 1 = 0xFFF from rfl, h1, h2]
  have hp : parse_opcode 0x00E0 = some .ClearDisplay := by decide
  have hstep : execute_next_inst topState 0 none
      = (inc_pc { topState with display := List.replicate DISPLAY_BUFFER_SIZE false },
         none) := by
    simp only [execute_next_inst, hr, hp, exec_instr]
  rw [hstep]
  exact ⟨rfl, rfl, by decide⟩

/-- C8 (amended): after every successfully executed instruction from a
well-formed state, PC ≤ 0x10FE — not 0xFFE as claimed: the implicit
advance at 0xFFE already yields 0x1000, a taken skip yields up to 0x1002,
and JP V0 up to 0xFFF + 0xFF = 0x10FE (the 16-bit wrap of BNNN can never
trigger) — and well-formedness is preserved. -/
theorem pc_bound_after_step (s : System) (rb : Nat) (kp : Option (Fin 16))
    (hwf : WellFormed s) (s2 : System)
    (hok : execute_next_inst s rb kp = (s2, none)) :
    s2.cpu.pc ≤ 0x10FE ∧ WellFormed s2 := by
  obtain ⟨hmlen, hmbytes, hregs, hstack, hdelay⟩ := hwf
  cases hr : read_u16 s.memory s.cpu.pc with
  | none =>
    exfalso
    have : (s, some SystemError.MemoryReadOverflow) = (s2, none) := by
      simpa only [execute_next_inst, hr] using hok
    exact Option.noConfusion (congrArg Prod.snd this)
  | some w =>
  cases hp2 : parse_opcode w with
  | none =>
    exfalso
    have : (s, some SystemError.UnknownInstruction) = (s2, none) := by
      simpa only [execute_next_inst, hr, hp2] using hok
    exact Option.noConfusion (congrArg Prod.snd this)
  | some op =>
  have hok2 : exec_instr s op rb kp = (s2, none) := by
    simpa only [execute_next_inst, hr, hp2] using hok
  have hiwf := parse_opcode_instr_wf hp2
  have hpcb : s.cpu.pc ≤ 0xFFE := by
    unfold read_u16 at hr
    split at hr
    · rename_i hi lo hh1 hh2
      obtain ⟨hlt, -⟩ := List.getElem?_eq_some_iff.mp hh2
      rw [hmlen] at hlt
      omega
    · exact Option.noConfusion hr
  clear hok hr
  cases op with
  | ClearDisplay =>
    simp only [exec_instr] at hok2
    obtain ⟨h1, -⟩ := (Prod.mk.injEq _ _ _ _).mp hok2
    subst h1
    exact ⟨by show (s.cpu.pc + 2) % 65536 ≤ 0x10FE; omega,
      hmlen, hmbytes, hregs, hstack, hdelay⟩
  | Return =>
    simp only [exec_instr] at hok2
    split at hok2
    · exact absurd (congrArg Prod.snd hok2) (by simp)
    · rename_i a rest heq
      obtain ⟨h1, -⟩ := (Prod.mk.injEq _ _ _ _).mp hok2
      subst h1
      have ha : a ≤ 0xFFE := hstack a (by rw [heq]; exact List.mem_cons_self a rest)
      refine ⟨by show (a + 2) % 65536 ≤ 0x10FE; omega,
        hmlen, hmbytes, hregs, ?_, hdelay⟩
      intro b hb
      exact hstack b (by rw [heq]; exact List.mem_cons_of_mem a hb)
  | Jump nnnv =>
    simp only [exec_instr] at hok2
    split at hok2
    · exact absurd (congrArg Prod.snd hok2) (by simp)
    · obtain ⟨h1, -⟩ := (Prod.mk.injEq _ _ _ _).mp hok2
      subst h1
      have hn : nnnv ≤ 0xFFF := hiwf
      exact ⟨by show nnnv ≤ 0x10FE; omega, hmlen, hmbytes, hregs, hstack, hdelay⟩
  | Call nnnv =>
    simp only [exec_instr] at hok2
    split at hok2
    · exact absurd (congrArg Prod.snd hok2) (by simp)
    · obtain ⟨h1, -⟩ := (Prod.mk.injEq _ _ _ _).mp hok2
      subst h1
      have hn : nnnv ≤ 0xFFF := hiwf
      refine ⟨by show nnnv ≤ 0x10FE; omega, hmlen, hmbytes, hregs, ?_, hdelay⟩
      intro b hb
      rcases List.mem_cons.mp hb with h | h
      · omega
      · exact hstack b h
  | SkipEqImm xr kkv =>
    simp only [exec_instr] at hok2
    split at hok2 <;>
      (obtain ⟨h1, -⟩ := (Prod.mk.injEq _ _ _ _).mp hok2
       subst h1)
    · exact ⟨by show ((s.cpu.pc + 2) % 65536 + 2) % 65536 ≤ 0x10FE; omega,
        hmlen, hmbytes, hregs, hstack, hdelay⟩
    · exact ⟨by show (s.cpu.pc + 2) % 65536 ≤ 0x10FE; omega,
        hmlen, hmbytes, hregs, hstack, hdelay⟩
  | SkipNotEqImm xr kkv =>
    simp only [exec_instr] at hok2
    split at hok2 <;>
      (obtain ⟨h1, -⟩ := (Prod.mk.injEq _ _ _ _).mp hok2
       subst h1)
    · exact ⟨by show ((s.cpu.pc + 2) % 65536 + 2) % 65536 ≤ 0x10FE; omega,
        hmlen, hmbytes, hregs, hstack, hdelay⟩
    · exact ⟨by show (s.cpu.pc + 2) % 65536 ≤ 0x10FE; omega,
        hmlen, hmbytes, hregs, hstack, hdelay⟩
  | SkipEqReg xr yr =>
    simp only [exec_instr] at hok2
    split at hok2 <;>
      (obtain ⟨h1, -⟩ := (Prod.mk.injEq _ _ _ _).mp hok2
       subst h1)
    · exact ⟨by show ((s.cpu.pc + 2) % 65536 + 2) % 65536 ≤ 0x10FE; omega,
        hmlen, hmbytes, hregs, hstack, hdelay⟩
    · exact ⟨by show (s.cpu.pc + 2) % 65536 ≤ 0x10FE; omega,
        hmlen, hmbytes, hregs, hstack, hdelay⟩
  | LoadImm xr kkv =>
    simp only [exec_instr] at hok2
    obtain ⟨h1, -⟩ := (Prod.mk.injEq _ _ _ _).mp hok2
    subst h1
    have hk : kkv ≤ 0xFF := hiwf
    exact ⟨by show (s.cpu.pc + 2) % 65536 ≤ 0x10FE; omega,
      hmlen, hmbytes, update_lt hregs (by omega), hstack, hdelay⟩
  | AddImm xr kkv =>
    simp only [exec_instr] at hok2
    obtain ⟨h1, -⟩ := (Prod.mk.injEq _ _ _ _).mp hok2
    subst h1
    exact ⟨by show (s.cpu.pc + 2) % 65536 ≤ 0x10FE; omega,
      hmlen, hmbytes, update_lt hregs (Nat.mod_lt _ (by omega)), hstack, hdelay⟩
  | LoadReg xr yr =>
    simp only [exec_instr] at hok2
    obtain ⟨h1, -⟩ := (Prod.mk.injEq _ _ _ _).mp hok2
    subst h1
    exact ⟨by show (s.cpu.pc + 2) % 65536 ≤ 0x10FE; omega,
      hmlen, hmbytes, update_lt hregs (hregs yr), hstack, hdelay⟩
  | OrReg xr yr =>
    simp only [exec_instr] at hok2
    obtain ⟨h1, -⟩ := (Prod.mk.injEq _ _ _ _).mp hok2
    subst h1
    have hor : s.cpu.v xr ||| s.cpu.v yr < 256 := by
      have := Nat.or_lt_two_pow (n := 8) (by simpa using hregs xr) (by simpa using hregs yr)
      simpa using this
    exact ⟨by show (s.cpu.pc + 2) % 65536 ≤ 0x10FE; omega,
      hmlen, hmbytes, update_lt hregs hor, hstack, hdelay⟩
  | AndReg xr yr =>
    simp only [exec_instr] at hok2
    obtain ⟨h1, -⟩ := (Prod.mk.injEq _ _ _ _).mp hok2
    subst h1
    have hand : s.cpu.v xr &&& s.cpu.v yr < 256 :=
      Nat.lt_of_le_of_lt Nat.and_le_left (hregs xr)
    exact ⟨by show (s.cpu.pc + 2) % 65536 ≤ 0x10FE; omega,
      hmlen, hmbytes, update_lt hregs hand, hstack, hdelay⟩
  | XorReg xr yr =>
    simp only [exec_instr] at hok2
    obtain ⟨h1, -⟩ := (Prod.mk.injEq _ _ _ _).mp hok2
    subst h1
    have hxor : s.cpu.v xr ^^^ s.cpu.v yr < 256 := by
      have := Nat.xor_lt_two_pow (n := 8) (by simpa using hregs xr) (by simpa using hregs yr)
      simpa using this
    exact ⟨by show (s.cpu.pc + 2) % 65536 ≤ 0x10FE; omega,
      hmlen, hmbytes, update_lt hregs hxor, hstack, hdelay⟩
  | AddReg xr yr =>
    simp only [exec_instr] at hok2
    obtain ⟨h1, -⟩ := (Prod.mk.injEq _ _ _ _).mp hok2
    subst h1
    exact ⟨by show (s.cpu.pc + 2) % 65536 ≤ 0x10FE; omega,
      hmlen, hmbytes,
      update_lt (update_lt hregs (Nat.mod_lt _ (by omega))) (by split <;> omega),
      hstack, hdelay⟩
  | SubReg xr yr =>
    simp only [exec_instr] at hok2
    obtain ⟨h1, -⟩ := (Prod.mk.injEq _ _ _ _).mp hok2
    subst h1
    exact ⟨by show (s.cpu.pc + 2) % 65536 ≤ 0x10FE; omega,
      hmlen, hmbytes,
      update_lt (update_lt hregs (Nat.mod_lt _ (by omega))) (by split <;> omega),
      hstack, hdelay⟩
  | ShiftRight xr yr =>
    simp only [exec_instr] at hok2
    split at hok2 <;>
      (obtain ⟨h1, -⟩ := (Prod.mk.injEq _ _ _ _).mp hok2
       subst h1)
    · have hv1 : ∀ j, Function.update s.cpu.v VF (s.cpu.v xr &&& 1) j < 256 :=
        update_lt hregs (Nat.lt_of_le_of_lt Nat.and_le_right (by omega))
      exact ⟨by show (s.cpu.pc + 2) % 65536 ≤ 0x10FE; omega,
        hmlen, hmbytes,
        update_lt hv1 (Nat.lt_of_le_of_lt (shiftRight_one_le _) (hv1 xr)),
        hstack, hdelay⟩
    · have hv1 : ∀ j, Function.update s.cpu.v VF (s.cpu.v yr &&& 1) j < 256 :=
        update_lt hregs (Nat.lt_of_le_of_lt Nat.and_le_right (by omega))
      exact ⟨by show (s.cpu.pc + 2) % 65536 ≤ 0x10FE; omega,
        hmlen, hmbytes,
        update_lt hv1 (Nat.lt_of_le_of_lt (shiftRight_one_le _) (hv1 yr)),
        hstack, hdelay⟩
  | SubN xr yr =>
    simp only [exec_instr] at hok2
    obtain ⟨h1, -⟩ := (Prod.mk.injEq _ _ _ _).mp hok2
    subst h1
    exact ⟨by show (s.cpu.pc + 2) % 65536 ≤ 0x10FE; omega,
      hmlen, hmbytes,
      update_lt (update_lt hregs (Nat.mod_lt _ (by omega))) (by split <;> omega),
      hstack, hdelay⟩
  | ShiftLeft xr yr =>
    simp only [exec_instr] at hok2
    split at hok2 <;>
      (obtain ⟨h1, -⟩ := (Prod.mk.injEq _ _ _ _).mp hok2
       subst h1)
    · have hv1 : ∀ j,
          Function.update s.cpu.v VF (if s.cpu.v xr &&& 0x80 ≠ 0 then 1 else 0) j < 256 :=
        update_lt hregs (by split <;> omega)
      exact ⟨by show (s.cpu.pc + 2) % 65536 ≤ 0x10FE; omega,
        hmlen, hmbytes, update_lt hv1 (Nat.mod_lt _ (by omega)), hstack, hdelay⟩
    · have hv1 : ∀ j,
          Function.update s.cpu.v VF (if s.cpu.v yr &&& 0x80 ≠ 0 then 1 else 0) j < 256 :=
        update_lt hregs (by split <;> omega)
      exact ⟨by show (s.cpu.pc + 2) % 65536 ≤ 0x10FE; omega,
        hmlen, hmbytes, update_lt hv1 (Nat.mod_lt _ (by omega)), hstack, hdelay⟩
  | SkipNotEqReg xr yr =>
    simp only [exec_instr] at hok2
    split at hok2 <;>
      (obtain ⟨h1, -⟩ := (Prod.mk.injEq _ _ _ _).mp hok2
       subst h1)
    · exact ⟨by show ((s.cpu.pc + 2) % 65536 + 2) % 65536 ≤ 0x10FE; omega,
        hmlen, hmbytes, hregs, hstack, hdelay⟩
    · exact ⟨by show (s.cpu.pc + 2) % 65536 ≤ 0x10FE; omega,
        hmlen, hmbytes, hregs, hstack, hdelay⟩
  | LoadI nnnv =>
    simp only [exec_instr] at hok2
    obtain ⟨h1, -⟩ := (Prod.mk.injEq _ _ _ _).mp hok2
    subst h1
    exact ⟨by show (s.cpu.pc + 2) % 65536 ≤ 0x10FE; omega,
      hmlen, hmbytes, hregs, hstack, hdelay⟩
  | JumpV0 nnnv =>
    simp only [exec_instr] at hok2
    obtain ⟨h1, -⟩ := (Prod.mk.injEq _ _ _ _).mp hok2
    subst h1
    have hn : nnnv ≤ 0xFFF := hiwf
    have hv0 : s.cpu.v V0 < 256 := hregs V0
    exact ⟨by show (nnnv + s.cpu.v V0) % 65536 ≤ 0x10FE; omega,
      hmlen, hmbytes, hregs, hstack, hdelay⟩
  | Random xr kkv =>
    simp only [exec_instr] at hok2
    obtain ⟨h1, -⟩ := (Prod.mk.injEq _ _ _ _).mp hok2
    subst h1
    have hk : kkv ≤ 0xFF := hiwf
    exact ⟨by show (s.cpu.pc + 2) % 65536 ≤ 0x10FE; omega,
      hmlen, hmbytes,
      update_lt hregs (Nat.lt_of_le_of_lt Nat.and_le_left (by omega)),
      hstack, hdelay⟩
  | Draw xr yr cnt =>
    simp only [exec_instr] at hok2
    split at hok2
    · exact absurd (congrArg Prod.snd hok2) (by simp)
    · obtain ⟨h1, -⟩ := (Prod.mk.injEq _ _ _ _).mp hok2
      subst h1
      exact ⟨by show (s.cpu.pc + 2) % 65536 ≤ 0x10FE; omega,
        hmlen, hmbytes, update_lt hregs ite_one_zero_lt, hstack, hdelay⟩
  | SkipKeyPressed xr =>
    simp only [exec_instr] at hok2
    split at hok2
    · rename_i k hk
      split at hok2 <;>
        (obtain ⟨h1, -⟩ := (Prod.mk.injEq _ _ _ _).mp hok2
         subst h1)
      · exact ⟨by show ((s.cpu.pc + 2) % 65536 + 2) % 65536 ≤ 0x10FE; omega,
          hmlen, hmbytes, hregs, hstack, hdelay⟩
      · exact ⟨by show (s.cpu.pc + 2) % 65536 ≤ 0x10FE; omega,
          hmlen, hmbytes, hregs, hstack, hdelay⟩
    · obtain ⟨h1, -⟩ := (Prod.mk.injEq _ _ _ _).mp hok2
      subst h1
      exact ⟨by show (s.cpu.pc + 2) % 65536 ≤ 0x10FE; omega,
        hmlen, hmbytes, hregs, hstack, hdelay⟩
  | SkipKeyNotPressed xr =>
    simp only [exec_instr] at hok2
    split at hok2
    · rename_i k hk
      split at hok2 <;>
        (obtain ⟨h1, -⟩ := (Prod.mk.injEq _ _ _ _).mp hok2
         subst h1)
      · exact ⟨by show ((s.cpu.pc + 2) % 65536 + 2) % 65536 ≤ 0x10FE; omega,
          hmlen, hmbytes, hregs, hstack, hdelay⟩
      · exact ⟨by show (s.cpu.pc + 2) % 65536 ≤ 0x10FE; omega,
          hmlen, hmbytes, hregs, hstack, hdelay⟩
    · obtain ⟨h1, -⟩ := (Prod.mk.injEq _ _ _ _).mp hok2
      subst h1
      exact ⟨by show (s.cpu.pc + 2) % 65536 ≤ 0x10FE; omega,
        hmlen, hmbytes, hregs, hstack, hdelay⟩
  | LoadDelayTimer xr =>
    simp only [exec_instr] at hok2
    obtain ⟨h1, -⟩ := (Prod.mk.injEq _ _ _ _).mp hok2
    subst h1
    exact ⟨by show (s.cpu.pc + 2) % 65536 ≤ 0x10FE; omega,
      hmlen, hmbytes, update_lt hregs hdelay, hstack, hdelay⟩
  | WaitKeyPress xr =>
    simp only [exec_instr] at hok2
    split at hok2
    · exact absurd (congrArg Prod.snd hok2) (by simp)
    · rename_i k
      obtain ⟨h1, -⟩ := (Prod.mk.injEq _ _ _ _).mp hok2
      subst h1
      exact ⟨by show (s.cpu.pc + 2) % 65536 ≤ 0x10FE; omega,
        hmlen, hmbytes, update_lt hregs (by have := k.isLt; omega), hstack, hdelay⟩
  | SetDelayTimer xr =>
    simp only [exec_instr] at hok2
    obtain ⟨h1, -⟩ := (Prod.mk.injEq _ _ _ _).mp hok2
    subst h1
    exact ⟨by show (s.cpu.pc + 2) % 65536 ≤ 0x10FE; omega,
      hmlen, hmbytes, hregs, hstack, hregs xr⟩
  | SetSoundTimer xr =>
    simp only [exec_instr] at hok2
    obtain ⟨h1, -⟩ := (Prod.mk.injEq _ _ _ _).mp hok2
    subst h1
    exact ⟨by show (s.cpu.pc + 2) % 65536 ≤ 0x10FE; omega,
      hmlen, hmbytes, hregs, hstack, hdelay⟩
  | AddI xr =>
    simp only [exec_instr] at hok2
    obtain ⟨h1, -⟩ := (Prod.mk.injEq _ _ _ _).mp hok2
    subst h1
    exact ⟨by show (s.cpu.pc + 2) % 65536 ≤ 0x10FE; omega,
      hmlen, hmbytes, hregs, hstack, hdelay⟩
  | LoadSprite xr =>
    simp only [exec_instr] at hok2
    obtain ⟨h1, -⟩ := (Prod.mk.injEq _ _ _ _).mp hok2
    subst h1
    exact ⟨by show (s.cpu.pc + 2) % 65536 ≤ 0x10FE; omega,
      hmlen, hmbytes, hregs, hstack, hdelay⟩
  | LoadBCD xr =>
    simp only [exec_instr] at hok2
    obtain ⟨h1, -⟩ := (Prod.mk.injEq _ _ _ _).mp hok2
    subst h1
    refine ⟨by show (s.cpu.pc + 2) % 65536 ≤ 0x10FE; omega, ?_, ?_, hregs, hstack, hdelay⟩
    · show (write_slice s.memory s.cpu.i _).length = 4096
      rw [write_slice_length]
      exact hmlen
    · intro b hb
      rcases mem_write_slice hb with h | h
      · exact hmbytes b h
      · have hx := hregs xr
        rcases List.mem_cons.mp h with h2 | h2
        · omega
        rcases List.mem_cons.mp h2 with h3 | h3
        · omega
        rcases List.mem_cons.mp h3 with h4 | h4
        · omega
        · simp at h4
  | SaveRegs xr =>
    simp only [exec_instr] at hok2
    split at hok2 <;>
      (obtain ⟨h1, -⟩ := (Prod.mk.injEq _ _ _ _).mp hok2
       subst h1) <;>
      (refine ⟨by show (s.cpu.pc + 2) % 65536 ≤ 0x10FE; omega, ?_, ?_,
         hregs, hstack, hdelay⟩
       · show (write_slice s.memory s.cpu.i _).length = 4096
         rw [write_slice_length]
         exact hmlen
       · intro b hb
         rcases mem_write_slice hb with h | h
         · exact hmbytes b h
         · simp only [List.mem_map] at h
           obtain ⟨j, -, rfl⟩ := h
           exact hregs _)
  | LoadRegs xr =>
    simp only [exec_instr] at hok2
    split at hok2
    · exact absurd (congrArg Prod.snd hok2) (by simp)
    · rename_i bytes heq
      have hbm : ∀ b ∈ bytes, b < 256 := by
        unfold read_slice at heq
        split at heq
        · intro b hb
          injection heq with heq2
          subst heq2
          exact hmbytes b (List.drop_subset _ _ (List.take_subset _ _ hb))
        · exact Option.noConfusion heq
      split at hok2 <;>
        (obtain ⟨h1, -⟩ := (Prod.mk.injEq _ _ _ _).mp hok2
         subst h1) <;>
        (refine ⟨by show (s.cpu.pc + 2) % 65536 ≤ 0x10FE; omega,
           hmlen, hmbytes, ?_, hstack, hdelay⟩
         intro j
         show (if j.val ≤ xr.val then bytes.getD j.val 0 else s.cpu.v j) < 256
         split
         · exact getD_lt_of_forall hbm j.val
         · exact hregs j)

/-- Witness for C8 (amended): a CLS at PC 0 in a well-formed 4 KiB memory. -/
theorem pc_bound_after_step_witness :
    (execute_next_inst (mkSys ([0x00, 0xE0] ++ List.replicate 4094 0)) 0 none).1.cpu.pc
      ≤ 0x10FE ∧
    WellFormed (execute_next_inst (mkSys ([0x00, 0xE0] ++ List.replicate 4094 0))
      0 none).1 := by
  have hwf : WellFormed (mkSys ([0x00, 0xE0] ++ List.replicate 4094 0)) := by
    refine ⟨?_, ?_, ?_, ?_, ?_⟩
    · show ([0x00, 0xE0] ++ List.replicate 4094 0 : List Nat).length = 4096
      rw [List.length_append, List.length_replicate]
      rfl
    · intro b hb
      have hb2 : b ∈ ([0x00, 0xE0] ++ List.replicate 4094 0 : List Nat) := hb
      rcases List.mem_append.mp hb2 with h | h
      · rcases List.mem_cons.mp h with h2 | h2
        · omega
        rcases List.mem_cons.mp h2 with h3 | h3
        · omega
        · simp at h3
      · rw [List.eq_of_mem_replicate h]
        omega
    · intro j
      show (0 : Nat) < 256
      omega
    · intro a ha
      exact absurd ha (List.not_mem_nil a)
    · show (0 : Nat) < 256
      omega
  have hok : execute_next_inst (mkSys ([0x00, 0xE0] ++ List.replicate 4094 0)) 0 none
      = ((execute_next_inst (mkSys ([0x00, 0xE0] ++ List.replicate 4094 0)) 0 none).1,
         none) := by
    have hr : read_u16 (mkSys ([0x00, 0xE0] ++ List.replicate 4094 0)).memory
        (mkSys ([0x00, 0xE0] ++ List.replicate 4094 0)).cpu.pc = some 0x00E0 := by
      show read_u16 ([0x00, 0xE0] ++ List.replicate 4094 0) 0 = some 0x00E0
      unfold read_u16
      rw [List.getElem?_append_left (by norm_num), List.getElem?_append_left (by norm_num)]
      rfl
    have hp : parse_opcode 0x00E0 = some Instr.ClearDisplay := by decide
    simp only [execute_next_inst, hr, hp, exec_instr]
  exact pc_bound_after_step (mkSys ([0x00, 0xE0] ++ List.replicate 4094 0)) 0 none hwf
    _ hok

/-! ## C2: order of the result and flag writes -/

/-- C2 is false on the code: the shift instructions write VF *before* the
result. Executing `8FF6` (SHR VF, VF) with VF = 1 in the default quirk
setting first writes VF ← VF & 1 = 1 (the flag) and then overwrites it
with the shifted source read back from VF, giving VF = 0 — the flag value
1 does not win. -/
theorem flag_write_order_counterexample :
    (execute_next_inst
        { mkSys [0x8F, 0xF6] with
          cpu := { (mkSys [0x8F, 0xF6]).cpu with
                   v := Function.update (fun _ => 0) VF 1 } } 0 none).2 = none ∧
    ({ mkSys [0x8F, 0xF6] with
       cpu := { (mkSys [0x8F, 0xF6]).cpu with
                v := Function.update (fun _ => 0) VF 1 } } : System).cpu.v VF &&& 1 = 1 ∧
    (execute_next_inst
        { mkSys [0x8F, 0xF6] with
          cpu := { (mkSys [0x8F, 0xF6]).cpu with
                   v := Function.update (fun _ => 0) VF 1 } } 0 none).1.cpu.v VF = 0 := by
  refine ⟨by decide, by decide, by decide⟩

/-- C2 (amended): for 8XY4/8XY5/8XY7 the VF flag write happens after the
result write (so the flag wins when the destination is VF), and DXYN
writes VF exactly once; but for 8XY6/8XYE — in both quirk settings — the
VF write happens *before* the result write, with the shift source read
after that write, so when x = F the final VF holds the shifted value (for
SHIFT_READS_VX, the shift of the just-written flag), not the flag. -/
theorem flag_write_order (s : System) (rb : Nat) (kp : Option (Fin 16)) (w : Nat)
    (hw : read_u16 s.memory s.cpu.pc = some w) :
    (∀ xr yr, parse_opcode w = some (.AddReg xr yr) →
      (execute_next_inst s rb kp).1.cpu.v
        = Function.update
            (Function.update s.cpu.v xr ((s.cpu.v xr + s.cpu.v yr) % 256)) VF
            (if decide (256 ≤ s.cpu.v xr + s.cpu.v yr) then 1 else 0)) ∧
    (∀ xr yr, parse_opcode w = some (.SubReg xr yr) →
      (execute_next_inst s rb kp).1.cpu.v
        = Function.update
            (Function.update s.cpu.v xr ((s.cpu.v xr + 256 - s.cpu.v yr) % 256)) VF
            (if decide (s.cpu.v xr < s.cpu.v yr) then 0 else 1)) ∧
    (∀ xr yr, parse_opcode w = some (.SubN xr yr) →
      (execute_next_inst s rb kp).1.cpu.v
        = Function.update
            (Function.update s.cpu.v xr ((s.cpu.v yr + 256 - s.cpu.v xr) % 256)) VF
            (if decide (s.cpu.v yr < s.cpu.v xr) then 0 else 1)) ∧
    (∀ xr yr, parse_opcode w = some (.ShiftRight xr yr) →
      s.quirks.shift_reads_vx = true →
      (execute_next_inst s rb kp).1.cpu.v
        = Function.update (Function.update s.cpu.v VF (s.cpu.v xr &&& 1)) xr
            (Function.update s.cpu.v VF (s.cpu.v xr &&& 1) xr >>> 1)) ∧
    (∀ xr yr, parse_opcode w = some (.ShiftRight xr yr) →
      s.quirks.shift_reads_vx = false →
      (execute_next_inst s rb kp).1.cpu.v
        = Function.update (Function.update s.cpu.v VF (s.cpu.v yr &&& 1)) xr
            (Function.update s.cpu.v VF (s.cpu.v yr &&& 1) yr >>> 1)) ∧
    (∀ xr yr, parse_opcode w = some (.ShiftLeft xr yr) →
      s.quirks.shift_reads_vx = true →
      (execute_next_inst s rb kp).1.cpu.v
        = Function.update
            (Function.update s.cpu.v VF (if s.cpu.v xr &&& 0x80 ≠ 0 then 1 else 0)) xr
            (Function.update s.cpu.v VF (if s.cpu.v xr &&& 0x80 ≠ 0 then 1 else 0) xr
              * 2 % 256)) ∧
    (∀ xr yr, parse_opcode w = some (.ShiftLeft xr yr) →
      s.quirks.shift_reads_vx = false →
      (execute_next_inst s rb kp).1.cpu.v
        = Function.update
            (Function.update s.cpu.v VF (if s.cpu.v yr &&& 0x80 ≠ 0 then 1 else 0)) xr
            (Function.update s.cpu.v VF (if s.cpu.v yr &&& 0x80 ≠ 0 then 1 else 0) yr
              * 2 % 256)) ∧
    (∀ xr yr cnt bytes, parse_opcode w = some (.Draw xr yr cnt) →
      read_slice s.memory s.cpu.i cnt = some bytes →
      (execute_next_inst s rb kp).1.cpu.v
        = Function.update s.cpu.v VF
            (if (if s.quirks.draw_wraps_pixels then
                   draw_sprite_wrapped s.display (s.cpu.v xr) (s.cpu.v yr) bytes
                 else
                   draw_sprite_clipped s.display (s.cpu.v xr) (s.cpu.v yr) bytes).2
             then 1 else 0)) := by
  refine ⟨?_, ?_, ?_, ?_, ?_, ?_, ?_, ?_⟩
  · intro xr yr hp
    simp only [execute_next_inst, hw, hp, exec_instr]
    rfl
  · intro xr yr hp
    simp only [execute_next_inst, hw, hp, exec_instr]
    rfl
  · intro xr yr hp
    simp only [execute_next_inst, hw, hp, exec_instr]
    rfl
  · intro xr yr hp hq
    simp only [execute_next_inst, hw, hp, exec_instr, hq]
    rfl
  · intro xr yr hp hq
    simp only [execute_next_inst, hw, hp, exec_instr, hq]
    rfl
  · intro xr yr hp hq
    simp only [execute_next_inst, hw, hp, exec_instr, hq]
    rfl
  · intro xr yr hp hq
    simp only [execute_next_inst, hw, hp, exec_instr, hq]
    rfl
  · intro xr yr cnt bytes hp hb
    simp only [execute_next_inst, hw, hp, exec_instr, hb]
    rfl

/-- Witness for C2 (amended): ADD V0, V1 with zeroed registers. -/
theorem flag_write_order_witness :
    (execute_next_inst (mkSys [0x80, 0x14]) 0 none).1.cpu.v
      = Function.update
          (Function.update (mkSys [0x80, 0x14]).cpu.v 0
            (((mkSys [0x80, 0x14]).cpu.v 0 + (mkSys [0x80, 0x14]).cpu.v 1) % 256)) VF
          (if decide (256 ≤ (mkSys [0x80, 0x14]).cpu.v 0 + (mkSys [0x80, 0x14]).cpu.v 1)
           then 1 else 0) :=
  (flag_write_order (mkSys [0x80, 0x14]) 0 none 0x8014 (by decide)).1 0 1 (by decide)

/-! ## C3: ADD/SUB/SUBN flag semantics -/

/-- C3: for byte-valued registers, 8XY4 sets VF to 1 iff the true sum
Vx + Vy ≥ 256 (else 0); 8XY5 sets VF to 1 iff Vx ≥ Vy (else 0); 8XY7 sets
VF to 1 iff Vy ≥ Vx (else 0); and the destination Vx receives the 8-bit
wrapped result (stated for x ≠ F: when the destination is VF itself the
flag is written after the result and wins — see the write-order theorem). -/
theorem arithmetic_flag_semantics (s : System) (rb : Nat) (kp : Option (Fin 16))
    (w : Nat) (hw : read_u16 s.memory s.cpu.pc = some w)
    (xr yr : Fin 16) (hx : s.cpu.v xr < 256) (hy : s.cpu.v yr < 256) :
    (parse_opcode w = some (.AddReg xr yr) →
      ((execute_next_inst s rb kp).1.cpu.v VF = 1 ↔ 256 ≤ s.cpu.v xr + s.cpu.v yr) ∧
      ((execute_next_inst s rb kp).1.cpu.v VF = 0 ↔ s.cpu.v xr + s.cpu.v yr < 256) ∧
      (xr ≠ VF →
        (execute_next_inst s rb kp).1.cpu.v xr = (s.cpu.v xr + s.cpu.v yr) % 256)) ∧
    (parse_opcode w = some (.SubReg xr yr) →
      ((execute_next_inst s rb kp).1.cpu.v VF = 1 ↔ s.cpu.v yr ≤ s.cpu.v xr) ∧
      ((execute_next_inst s rb kp).1.cpu.v VF = 0 ↔ s.cpu.v xr < s.cpu.v yr) ∧
      (xr ≠ VF →
        (execute_next_inst s rb kp).1.cpu.v xr = (s.cpu.v xr + 256 - s.cpu.v yr) % 256)) ∧
    (parse_opcode w = some (.SubN xr yr) →
      ((execute_next_inst s rb kp).1.cpu.v VF = 1 ↔ s.cpu.v xr ≤ s.cpu.v yr) ∧
      ((execute_next_inst s rb kp).1.cpu.v VF = 0 ↔ s.cpu.v yr < s.cpu.v xr) ∧
      (xr ≠ VF →
        (execute_next_inst s rb kp).1.cpu.v xr
          = (s.cpu.v yr + 256 - s.cpu.v xr) % 256)) := by
  refine ⟨?_, ?_, ?_⟩
  · intro hp
    have hv := (flag_write_order s rb kp w hw).1 xr yr hp
    rw [hv]
    refine ⟨?_, ?_, ?_⟩
    · rw [Function.update_same]
      by_cases hc : 256 ≤ s.cpu.v xr + s.cpu.v yr <;> simp [hc]
    · rw [Function.update_same]
      by_cases hc : 256 ≤ s.cpu.v xr + s.cpu.v yr <;> simp [hc] <;> omega
    · intro hne
      rw [Function.update_noteq hne, Function.update_same]
  · intro hp
    have hv := (flag_write_order s rb kp w hw).2.1 xr yr hp
    rw [hv]
    refine ⟨?_, ?_, ?_⟩
    · rw [Function.update_same]
      by_cases hc : s.cpu.v xr < s.cpu.v yr <;> simp [hc] <;> omega
    · rw [Function.update_same]
      by_cases hc : s.cpu.v xr < s.cpu.v yr <;> simp [hc] <;> omega
    · intro hne
      rw [Function.update_noteq hne, Function.update_same]
  · intro hp
    have hv := (flag_write_order s rb kp w hw).2.2.1 xr yr hp
    rw [hv]
    refine ⟨?_, ?_, ?_⟩
    · rw [Function.update_same]
      by_cases hc : s.cpu.v yr < s.cpu.v xr <;> simp [hc] <;> omega
    · rw [Function.update_same]
      by_cases hc : s.cpu.v yr < s.cpu.v xr <;> simp [hc] <;> omega
    · intro hne
      rw [Function.update_noteq hne, Function.update_same]

/-- Witness for C3: ADD V0, V1 on a state with V0 = 200, V1 = 100
(sum 300 ≥ 256, so VF = 1). -/
theorem arithmetic_flag_semantics_witness :
    ((execute_next_inst
        { mkSys [0x80, 0x14] with
          cpu := { (mkSys [0x80, 0x14]).cpu with
                   v := Function.update (Function.update (fun _ => 0) 0 200) 1 100 } }
        0 none).1.cpu.v VF = 1 ↔
      256 ≤ ({ mkSys [0x80, 0x14] with
               cpu := { (mkSys [0x80, 0x14]).cpu with
                        v := Function.update (Function.update (fun _ => 0) 0 200) 1 100 } }
        : System).cpu.v 0
        + ({ mkSys [0x80, 0x14] with
             cpu := { (mkSys [0x80, 0x14]).cpu with
                      v := Function.update (Function.update (fun _ => 0) 0 200) 1 100 } }
          : System).cpu.v 1) :=
  ((arithmetic_flag_semantics
      { mkSys [0x80, 0x14] with
        cpu := { (mkSys [0x80, 0x14]).cpu with
                 v := Function.update (Function.update (fun _ => 0) 0 200) 1 100 } }
      0 none 0x8014 (by decide) 0 1 (by decide) (by decide)).1 (by decide)).1

/-! ## C9: ADD Vx, kk frame -/

/-- C9: executing 7XKK sets Vx to (Vx + kk) mod 256 and changes nothing
else: VF is untouched (when x ≠ F there is no flag write at all — and when
x = F the only write to VF is the sum itself, not a flag), every other
register, I, the stack, memory, and the display are unchanged, and PC
advances by the normal 2. -/
theorem add_imm_frame (s : System) (rb : Nat) (kp : Option (Fin 16)) (w : Nat)
    (xr : Fin 16) (kkv : Nat)
    (hw : read_u16 s.memory s.cpu.pc = some w)
    (hp : parse_opcode w = some (.AddImm xr kkv)) :
    execute_next_inst s rb kp
      = (inc_pc { s with cpu :=
          { s.cpu with v := Function.update s.cpu.v xr ((s.cpu.v xr + kkv) % 256) } },
         none) ∧
    (execute_next_inst s rb kp).1.cpu.v xr = (s.cpu.v xr + kkv) % 256 ∧
    (∀ j, j ≠ xr → (execute_next_inst s rb kp).1.cpu.v j = s.cpu.v j) ∧
    (xr ≠ VF → (execute_next_inst s rb kp).1.cpu.v VF = s.cpu.v VF) ∧
    (execute_next_inst s rb kp).1.cpu.i = s.cpu.i ∧
    (execute_next_inst s rb kp).1.cpu.stack = s.cpu.stack ∧
    (execute_next_inst s rb kp).1.memory = s.memory ∧
    (execute_next_inst s rb kp).1.display = s.display ∧
    (execute_next_inst s rb kp).1.cpu.pc = (s.cpu.pc + 2) % 65536 ∧
    (execute_next_inst s rb kp).2 = none := by
  have hstep : execute_next_inst s rb kp
      = (inc_pc { s with cpu :=
          { s.cpu with v := Function.update s.cpu.v xr ((s.cpu.v xr + kkv) % 256) } },
         none) := by
    simp only [execute_next_inst, hw, hp, exec_instr]
  refine ⟨hstep, ?_, ?_, ?_, ?_, ?_, ?_, ?_, ?_, ?_⟩ <;> rw [hstep]
  · exact Function.update_same xr _ s.cpu.v
  · intro j hj
    exact Function.update_noteq hj _ s.cpu.v
  · intro hne
    exact Function.update_noteq (Ne.symm hne) _ s.cpu.v
  all_goals rfl

/-- Witness for C9: ADD V0, 0x2A at PC 0 (7 0 2A). -/
theorem add_imm_frame_witness :
    (execute_next_inst (mkSys [0x70, 0x2A]) 0 none).1.cpu.v 0
      = ((mkSys [0x70, 0x2A]).cpu.v 0 + 0x2A) % 256 :=
  (add_imm_frame (mkSys [0x70, 0x2A]) 0 none 0x702A 0 0x2A (by decide) (by decide)).2.1

/-! ## C10: SKP/SKNP with an out-of-range key number -/

/-- C10: when Vx is not a valid key number (Vx > 0xF), both EX9E and EXA1
fall through without skipping: `Key::from` yields None, so neither the
is-key-down test nor the skip happens, PC advances by the normal 2, and no
error is raised; EXA1 does not treat the invalid key as "not pressed". -/
theorem skip_key_invalid_fallthrough (s : System) (rb : Nat) (kp : Option (Fin 16))
    (w : Nat) (xr : Fin 16)
    (hw : read_u16 s.memory s.cpu.pc = some w)
    (hx : 16 ≤ s.cpu.v xr) :
    (parse_opcode w = some (.SkipKeyPressed xr) →
      execute_next_inst s rb kp = (inc_pc s, none)) ∧
    (parse_opcode w = some (.SkipKeyNotPressed xr) →
      execute_next_inst s rb kp = (inc_pc s, none)) := by
  have hkey : Key.from (s.cpu.v xr) = none := by
    unfold Key.from
    rw [dif_neg (by omega)]
  constructor
  · intro hp
    simp only [execute_next_inst, hw, hp, exec_instr, hkey]
  · intro hp
    simp only [execute_next_inst, hw, hp, exec_instr, hkey]

/-- Witness for C10: EX9E with V0 = 0x20 (not a key number). -/
theorem skip_key_invalid_fallthrough_witness :
    execute_next_inst
        { mkSys [0xE0, 0x9E] with
          cpu := { (mkSys [0xE0, 0x9E]).cpu with
                   v := Function.update (fun _ => 0) 0 0x20 } } 0 none
      = (inc_pc { mkSys [0xE0, 0x9E] with
          cpu := { (mkSys [0xE0, 0x9E]).cpu with
                   v := Function.update (fun _ => 0) 0 0x20 } }, none) :=
  (skip_key_invalid_fallthrough
      { mkSys [0xE0, 0x9E] with
        cpu := { (mkSys [0xE0, 0x9E]).cpu with
                 v := Function.update (fun _ => 0) 0 0x20 } } 0 none 0xE09E 0
      (by decide) (by decide)).1 (by decide)

end Chip8

/-! ## C6: assembler encode / interpreter decode round trip -/

namespace C8asm


/-- Splitting a bitwise or of two numbers whose low `n` bits and high parts
are given separately: the or acts componentwise on the two fields. -/
theorem lor_split : ∀ (n a b c d : Nat), b < 2 ^ n → d < 2 ^ n →
    (2 ^ n * a + b) ||| (2 ^ n * c + d) = 2 ^ n * (a ||| c) + (b ||| d) := by
  intro n
  induction n with
  | zero =>
    intro a b c d hb hd
    have hb0 : b = 0 := by omega
    have hd0 : d = 0 := by omega
    subst hb0
    subst hd0
    simp
  | succ n ih =>
    intro a b c d hb hd
    have hp : (2 : Nat) ^ (n + 1) = 2 * 2 ^ n := by ring
    have h2a : 2 ^ (n + 1) * a = 2 * (2 ^ n * a) := by rw [hp]; ring
    have h2c : 2 ^ (n + 1) * c = 2 * (2 ^ n * c) := by rw [hp]; ring
    have h2ac : 2 ^ (n + 1) * (a ||| c) = 2 * (2 ^ n * (a ||| c)) := by rw [hp]; ring
    have hdivL : ((2 ^ (n + 1) * a + b) ||| (2 ^ (n + 1) * c + d)) / 2
        = 2 ^ n * (a ||| c) + (b / 2 ||| d / 2) := by
      rw [Nat.or_div_two]
      have e1 : (2 ^ (n + 1) * a + b) / 2 = 2 ^ n * a + b / 2 := by omega
      have e2 : (2 ^ (n + 1) * c + d) / 2 = 2 ^ n * c + d / 2 := by omega
      rw [e1, e2]
      exact ih a (b / 2) c (d / 2) (by omega) (by omega)
    have hA : (2 ^ (n + 1) * a + b) % 2 = b % 2 := by omega
    have hC : (2 ^ (n + 1) * c + d) % 2 = d % 2 := by omega
    have hiffL : (((2 ^ (n + 1) * a + b) ||| (2 ^ (n + 1) * c + d)) % 2 = 1)
        ↔ (b % 2 = 1 ∨ d % 2 = 1) := by
      rw [Nat.or_mod_two_eq_one, hA, hC]
    have hiffR : ((b ||| d) % 2 = 1) ↔ (b % 2 = 1 ∨ d % 2 = 1) := Nat.or_mod_two_eq_one
    have hordiv : (b ||| d) / 2 = b / 2 ||| d / 2 := Nat.or_div_two
    have hdmL := Nat.div_add_mod ((2 ^ (n + 1) * a + b) ||| (2 ^ (n + 1) * c + d)) 2
    omega

/-- Oring a low field below bit `n` into a number with clear low bits is
plain addition. -/
theorem or_eq_add_of_lt (n a b : Nat) (h : b < 2 ^ n) :
    2 ^ n * a ||| b = 2 ^ n * a + b := by
  have h0 : (0 : Nat) < 2 ^ n := by positivity
  have hs := lor_split n a 0 0 b h0 h
  simpa using hs

theorem shl8 (r : Nat) : r <<< 8 = r * 256 := by
  rw [Nat.shiftLeft_eq]

theorem shl4 (r : Nat) : r <<< 4 = r * 16 := by
  rw [Nat.shiftLeft_eq]

/-- The word built by `reg_imm` on a pure-high-nibble base, as a sum. -/
theorem reg_imm_word (m r b : Nat) (hr : r < 16) (hb : b < 256) :
    reg_imm (m * 4096) r b = m * 4096 + r * 256 + b := by
  unfold reg_imm
  rw [shl8]
  rw [show m * 4096 = 2 ^ 12 * m from by ring]
  rw [or_eq_add_of_lt 12 m (r * 256) (by omega)]
  rw [show (2 : Nat) ^ 12 * m + r * 256 = 2 ^ 8 * (16 * m + r) from by ring]
  rw [or_eq_add_of_lt 8 (16 * m + r) b (by omega)]

/-- The word built by `reg_reg` on a base with high nibble `m` and low
nibble `k`, as a sum. -/
theorem reg_reg_word (m k r1 r2 : Nat) (hk : k < 16) (h1 : r1 < 16) (h2 : r2 < 16) :
    reg_reg (m * 4096 + k) r1 r2 = m * 4096 + r1 * 256 + (r2 * 16 + k) := by
  unfold reg_reg
  rw [shl8, shl4]
  have e1 : (m * 4096 + k) ||| r1 * 256 = m * 4096 + r1 * 256 + k := by
    have h := lor_split 8 (2 ^ 4 * m) k r1 0 (by omega) (by omega)
    rw [Nat.or_zero, or_eq_add_of_lt 4 m r1 (by omega)] at h
    rw [show (2 : Nat) ^ 8 * (2 ^ 4 * m) + k = m * 4096 + k from by ring] at h
    rw [show (2 : Nat) ^ 8 * r1 + 0 = r1 * 256 from by ring] at h
    rw [show (2 : Nat) ^ 8 * (2 ^ 4 * m + r1) + k = m * 4096 + r1 * 256 + k from by ring] at h
    exact h
  rw [e1]
  have h := lor_split 8 (2 ^ 4 * m + r1) k 0 (r2 * 16) (by omega) (by omega)
  rw [Nat.or_zero] at h
  rw [Nat.or_comm k (r2 * 16)] at h
  rw [show r2 * 16 = 2 ^ 4 * r2 from by ring] at h
  rw [or_eq_add_of_lt 4 r2 k (by omega)] at h
  rw [show (2 : Nat) ^ 8 * (2 ^ 4 * m + r1) + k = m * 4096 + r1 * 256 + k from by ring] at h
  rw [show (2 : Nat) ^ 8 * 0 + 2 ^ 4 * r2 = r2 * 16 from by ring] at h
  rw [show (2 : Nat) ^ 8 * (2 ^ 4 * m + r1) + (2 ^ 4 * r2 + k)
    = m * 4096 + r1 * 256 + (r2 * 16 + k) from by ring] at h
  exact h

/-- The word built by `reg_reg_nib` on a pure-high-nibble base, as a sum. -/
theorem reg_reg_nib_word (m r1 r2 nb : Nat) (h1 : r1 < 16) (h2 : r2 < 16) (hn : nb < 16) :
    reg_reg_nib (m * 4096) r1 r2 nb = m * 4096 + r1 * 256 + (r2 * 16 + nb) := by
  have hrr : reg_reg_nib (m * 4096) r1 r2 nb = reg_reg (m * 4096) r1 r2 ||| (nb &&& 0xF) := rfl
  have h0 := reg_reg_word m 0 r1 r2 (by omega) h1 h2
  rw [show m * 4096 + 0 = m * 4096 from by ring] at h0
  rw [show r2 * 16 + 0 = r2 * 16 from by ring] at h0
  rw [hrr, h0]
  rw [show (0xF : Nat) = 2 ^ 4 - 1 from by norm_num, Nat.and_pow_two_sub_one_eq_mod]
  rw [show (2 : Nat) ^ 4 = 16 from by norm_num]
  rw [Nat.mod_eq_of_lt hn]
  rw [show m * 4096 + r1 * 256 + r2 * 16 = 2 ^ 4 * (m * 256 + r1 * 16 + r2) from by ring]
  rw [or_eq_add_of_lt 4 (m * 256 + r1 * 16 + r2) nb (by omega)]
  ring

/-- The word built by `reg` on a base with high nibble `m` and low byte
`c0`, as a sum. -/
theorem reg_word (m c0 r : Nat) (hc : c0 < 256) (hr : r < 16) :
    reg (m * 4096 + c0) r = m * 4096 + r * 256 + c0 := by
  unfold reg
  rw [shl8]
  have h := lor_split 8 (2 ^ 4 * m) c0 r 0 (by omega) (by omega)
  rw [Nat.or_zero, or_eq_add_of_lt 4 m r (by omega)] at h
  rw [show (2 : Nat) ^ 8 * (2 ^ 4 * m) + c0 = m * 4096 + c0 from by ring] at h
  rw [show (2 : Nat) ^ 8 * r + 0 = r * 256 from by ring] at h
  rw [show (2 : Nat) ^ 8 * (2 ^ 4 * m + r) + c0 = m * 4096 + r * 256 + c0 from by ring] at h
  exact h

/-- Most significant nibble of a decomposed word. -/
theorem word_msn (m r c : Nat) (hr : r < 16) (hc : c < 256) :
    (m * 4096 + r * 256 + c) >>> 12 = m := by
  rw [Nat.shiftRight_eq_div_pow, show (2 : Nat) ^ 12 = 4096 from by norm_num]
  omega

/-- The X register field of a decomposed word. -/
theorem word_x (m r c : Nat) (hr : r < 16) (hc : c < 256) :
    Chip8.x (m * 4096 + r * 256 + c) = ⟨r, hr⟩ := by
  apply Fin.ext
  show (m * 4096 + r * 256 + c) >>> 8 &&& 0x0F = r
  rw [Nat.shiftRight_eq_div_pow, show (2 : Nat) ^ 8 = 256 from by norm_num]
  rw [show (0x0F : Nat) = 2 ^ 4 - 1 from by norm_num, Nat.and_pow_two_sub_one_eq_mod]
  rw [show (2 : Nat) ^ 4 = 16 from by norm_num]
  omega

/-- The low byte of a decomposed word. -/
theorem word_low_byte (m r c : Nat) (hc : c < 256) :
    (m * 4096 + r * 256 + c) &&& 0xFF = c := by
  rw [show (0xFF : Nat) = 2 ^ 8 - 1 from by norm_num, Nat.and_pow_two_sub_one_eq_mod]
  rw [show (2 : Nat) ^ 8 = 256 from by norm_num]
  omega

/-- The KK immediate field of a decomposed word. -/
theorem word_kk (m r c : Nat) (hc : c < 256) :
    Chip8.kk (m * 4096 + r * 256 + c) = c := by
  show (m * 4096 + r * 256 + c) &&& 0xFF = c
  exact word_low_byte m r c hc

/-- The Y register field of a decomposed word. -/
theorem word_y (m r d e : Nat) (hd : d < 16) (he : e < 16) :
    Chip8.y (m * 4096 + r * 256 + (d * 16 + e)) = ⟨d, hd⟩ := by
  apply Fin.ext
  show (m * 4096 + r * 256 + (d * 16 + e)) >>> 4 &&& 0x0F = d
  rw [Nat.shiftRight_eq_div_pow, show (2 : Nat) ^ 4 = 16 from by norm_num]
  rw [show (0x0F : Nat) = 2 ^ 4 - 1 from by norm_num, Nat.and_pow_two_sub_one_eq_mod]
  rw [show (2 : Nat) ^ 4 = 16 from by norm_num]
  omega

/-- The low nibble of a decomposed word. -/
theorem word_low_nibble (m r d e : Nat) (he : e < 16) :
    (m * 4096 + r * 256 + (d * 16 + e)) &&& 0xF = e := by
  rw [show (0xF : Nat) = 2 ^ 4 - 1 from by norm_num, Nat.and_pow_two_sub_one_eq_mod]
  rw [show (2 : Nat) ^ 4 = 16 from by norm_num]
  omega

/-- The N nibble field of a decomposed word. -/
theorem word_n (m r d e : Nat) (he : e < 16) :
    Chip8.n (m * 4096 + r * 256 + (d * 16 + e)) = e := by
  show (m * 4096 + r * 256 + (d * 16 + e)) &&& 0xF = e
  exact word_low_nibble m r d e he

/-- Under the well-formedness bound, `reg_fin` is the obvious embedding. -/
theorem reg_fin_eq (r : Nat) (hr : r < 16) : reg_fin r = ⟨r, hr⟩ := by
  apply Fin.ext
  show r % 16 = r
  exact Nat.mod_eq_of_lt hr

set_option maxRecDepth 4000 in
set_option maxHeartbeats 1600000 in
/-- C6: for every assembler opcode whose register operands are < 16, whose
byte immediates are byte values, whose draw nibble is < 16, and whose
address operands are immediates ≤ 0xFFF, the 16-bit word emitted by the
generator decodes under the interpreter's `parse_opcode` to the
corresponding interpreter instruction. -/
theorem encode_decode_roundtrip (o : Opcode) (hwf : o.wf) :
    ∃ w, opcode o [] = .ok w ∧
      Chip8.parse_opcode w = toInstr o ∧ toInstr o ≠ none := by
  cases o with
  | ClearDisplay => exact ⟨0x00E0, rfl, by decide, by simp [toInstr]⟩
  | Return => exact ⟨0x00EE, rfl, by decide, by simp [toInstr]⟩
  | Jump a =>
    cases a with
    | Imm v =>
      have hv : v ≤ 0xFFF := hwf
      refine ⟨_, rfl, ?_, by simp [toInstr]⟩
      show Chip8.parse_opcode (0x1000 ||| (v &&& 0xFFF)) = some (.Jump v)
      have hand : v &&& 0xFFF = v := by
        rw [show (0xFFF : Nat) = 2 ^ 12 - 1 from by norm_num, Nat.and_pow_two_sub_one_eq_mod,
          show (2 : Nat) ^ 12 = 4096 from by norm_num]
        omega
      rw [hand, show (0x1000 : Nat) = 2 ^ 12 * 1 from by norm_num,
        or_eq_add_of_lt 12 1 v (by omega)]
      have hmsn : ((2 : Nat) ^ 12 * 1 + v) >>> 12 = 1 := by
        rw [Nat.shiftRight_eq_div_pow, show (2 : Nat) ^ 12 = 4096 from by norm_num]
        omega
      have hnnn : Chip8.nnn (2 ^ 12 * 1 + v) = v := by
        show (2 ^ 12 * 1 + v) &&& 0xFFF = v
        rw [show (0xFFF : Nat) = 2 ^ 12 - 1 from by norm_num, Nat.and_pow_two_sub_one_eq_mod,
          show (2 : Nat) ^ 12 = 4096 from by norm_num]
        omega
      unfold Chip8.parse_opcode
      rw [if_neg (by omega : ¬((2 : Nat) ^ 12 * 1 + v = 0x00E0)),
        if_neg (by omega : ¬((2 : Nat) ^ 12 * 1 + v = 0x00EE)), hmsn]
      show some (Chip8.Instr.Jump (Chip8.nnn (2 ^ 12 * 1 + v))) = some (.Jump v)
      rw [hnnn]
    | LabelRef l => exact hwf.elim
  | Call a =>
    cases a with
    | Imm v =>
      have hv : v ≤ 0xFFF := hwf
      refine ⟨_, rfl, ?_, by simp [toInstr]⟩
      show Chip8.parse_opcode (0x2000 ||| (v &&& 0xFFF)) = some (.Call v)
      have hand : v &&& 0xFFF = v := by
        rw [show (0xFFF : Nat) = 2 ^ 12 - 1 from by norm_num, Nat.and_pow_two_sub_one_eq_mod,
          show (2 : Nat) ^ 12 = 4096 from by norm_num]
        omega
      rw [hand, show (0x2000 : Nat) = 2 ^ 12 * 2 from by norm_num,
        or_eq_add_of_lt 12 2 v (by omega)]
      have hmsn : ((2 : Nat) ^ 12 * 2 + v) >>> 12 = 2 := by
        rw [Nat.shiftRight_eq_div_pow, show (2 : Nat) ^ 12 = 4096 from by norm_num]
        omega
      have hnnn : Chip8.nnn (2 ^ 12 * 2 + v) = v := by
        show (2 ^ 12 * 2 + v) &&& 0xFFF = v
        rw [show (0xFFF : Nat) = 2 ^ 12 - 1 from by norm_num, Nat.and_pow_two_sub_one_eq_mod,
          show (2 : Nat) ^ 12 = 4096 from by norm_num]
        omega
      unfold Chip8.parse_opcode
      rw [if_neg (by omega : ¬((2 : Nat) ^ 12 * 2 + v = 0x00E0)),
        if_neg (by omega : ¬((2 : Nat) ^ 12 * 2 + v = 0x00EE)), hmsn]
      show some (Chip8.Instr.Call (Chip8.nnn (2 ^ 12 * 2 + v))) = some (.Call v)
      rw [hnnn]
    | LabelRef l => exact hwf.elim
  | SkipEqImm r b =>
    obtain ⟨hr, hb⟩ := hwf
    refine ⟨_, rfl, ?_, by simp [toInstr]⟩
    show Chip8.parse_opcode (reg_imm 0x3000 r b) = some (.SkipEqImm (reg_fin r) b)
    rw [show (0x3000 : Nat) = 3 * 4096 from by norm_num, reg_imm_word 3 r b hr hb]
    unfold Chip8.parse_opcode
    rw [if_neg (by omega : ¬(3 * 4096 + r * 256 + b = 0x00E0)),
      if_neg (by omega : ¬(3 * 4096 + r * 256 + b = 0x00EE)),
      word_msn 3 r b hr hb]
    show some (Chip8.Instr.SkipEqImm (Chip8.x (3 * 4096 + r * 256 + b))
        (Chip8.kk (3 * 4096 + r * 256 + b))) = some (.SkipEqImm (reg_fin r) b)
    rw [word_x 3 r b hr hb, word_kk 3 r b hb, reg_fin_eq r hr]
  | SkipNotEqImm r b =>
    obtain ⟨hr, hb⟩ := hwf
    refine ⟨_, rfl, ?_, by simp [toInstr]⟩
    show Chip8.parse_opcode (reg_imm 0x4000 r b) = some (.SkipNotEqImm (reg_fin r) b)
    rw [show (0x4000 : Nat) = 4 * 4096 from by norm_num, reg_imm_word 4 r b hr hb]
    unfold Chip8.parse_opcode
    rw [if_neg (by omega : ¬(4 * 4096 + r * 256 + b = 0x00E0)),
      if_neg (by omega : ¬(4 * 4096 + r * 256 + b = 0x00EE)),
      word_msn 4 r b hr hb]
    show some (Chip8.Instr.SkipNotEqImm (Chip8.x (4 * 4096 + r * 256 + b))
        (Chip8.kk (4 * 4096 + r * 256 + b))) = some (.SkipNotEqImm (reg_fin r) b)
    rw [word_x 4 r b hr hb, word_kk 4 r b hb, reg_fin_eq r hr]
  | SkipEqReg r1 r2 =>
    obtain ⟨h1, h2⟩ := hwf
    refine ⟨_, rfl, ?_, by simp [toInstr]⟩
    show Chip8.parse_opcode (reg_reg 0x5000 r1 r2) = some (.SkipEqReg (reg_fin r1) (reg_fin r2))
    rw [show (0x5000 : Nat) = 5 * 4096 + 0 from by norm_num,
      reg_reg_word 5 0 r1 r2 (by omega) h1 h2]
    unfold Chip8.parse_opcode
    rw [if_neg (by omega : ¬(5 * 4096 + r1 * 256 + (r2 * 16 + 0) = 0x00E0)),
      if_neg (by omega : ¬(5 * 4096 + r1 * 256 + (r2 * 16 + 0) = 0x00EE)),
      word_msn 5 r1 (r2 * 16 + 0) h1 (by omega),
      word_low_nibble 5 r1 r2 0 (by omega)]
    show some (Chip8.Instr.SkipEqReg (Chip8.x (5 * 4096 + r1 * 256 + (r2 * 16 + 0)))
        (Chip8.y (5 * 4096 + r1 * 256 + (r2 * 16 + 0)))) = some (.SkipEqReg (reg_fin r1) (reg_fin r2))
    rw [word_x 5 r1 (r2 * 16 + 0) h1 (by omega), word_y 5 r1 r2 0 h2 (by omega),
      reg_fin_eq r1 h1, reg_fin_eq r2 h2]
  | LoadImm r b =>
    obtain ⟨hr, hb⟩ := hwf
    refine ⟨_, rfl, ?_, by simp [toInstr]⟩
    show Chip8.parse_opcode (reg_imm 0x6000 r b) = some (.LoadImm (reg_fin r) b)
    rw [show (0x6000 : Nat) = 6 * 4096 from by norm_num, reg_imm_word 6 r b hr hb]
    unfold Chip8.parse_opcode
    rw [if_neg (by omega : ¬(6 * 4096 + r * 256 + b = 0x00E0)),
      if_neg (by omega : ¬(6 * 4096 + r * 256 + b = 0x00EE)),
      word_msn 6 r b hr hb]
    show some (Chip8.Instr.LoadImm (Chip8.x (6 * 4096 + r * 256 + b))
        (Chip8.kk (6 * 4096 + r * 256 + b))) = some (.LoadImm (reg_fin r) b)
    rw [word_x 6 r b hr hb, word_kk 6 r b hb, reg_fin_eq r hr]
  | AddImm r b =>
    obtain ⟨hr, hb⟩ := hwf
    refine ⟨_, rfl, ?_, by simp [toInstr]⟩
    show Chip8.parse_opcode (reg_imm 0x7000 r b) = some (.AddImm (reg_fin r) b)
    rw [show (0x7000 : Nat) = 7 * 4096 from by norm_num, reg_imm_word 7 r b hr hb]
    unfold Chip8.parse_opcode
    rw [if_neg (by omega : ¬(7 * 4096 + r * 256 + b = 0x00E0)),
      if_neg (by omega : ¬(7 * 4096 + r * 256 + b = 0x00EE)),
      word_msn 7 r b hr hb]
    show some (Chip8.Instr.AddImm (Chip8.x (7 * 4096 + r * 256 + b))
        (Chip8.kk (7 * 4096 + r * 256 + b))) = some (.AddImm (reg_fin r) b)
    rw [word_x 7 r b hr hb, word_kk 7 r b hb, reg_fin_eq r hr]
  | LoadReg r1 r2 =>
    obtain ⟨h1, h2⟩ := hwf
    refine ⟨_, rfl, ?_, by simp [toInstr]⟩
    show Chip8.parse_opcode (reg_reg 0x8000 r1 r2) = some (.LoadReg (reg_fin r1) (reg_fin r2))
    rw [show (0x8000 : Nat) = 8 * 4096 + 0 from by norm_num,
      reg_reg_word 8 0 r1 r2 (by omega) h1 h2]
    unfold Chip8.parse_opcode
    rw [if_neg (by omega : ¬(8 * 4096 + r1 * 256 + (r2 * 16 + 0) = 0x00E0)),
      if_neg (by omega : ¬(8 * 4096 + r1 * 256 + (r2 * 16 + 0) = 0x00EE)),
      word_msn 8 r1 (r2 * 16 + 0) h1 (by omega)]
    show Chip8.parse_opcode_8 (8 * 4096 + r1 * 256 + (r2 * 16 + 0)) = some (.LoadReg (reg_fin r1) (reg_fin r2))
    unfold Chip8.parse_opcode_8
    rw [word_low_nibble 8 r1 r2 0 (by omega)]
    show some (Chip8.Instr.LoadReg (Chip8.x (8 * 4096 + r1 * 256 + (r2 * 16 + 0)))
        (Chip8.y (8 * 4096 + r1 * 256 + (r2 * 16 + 0)))) = some (.LoadReg (reg_fin r1) (reg_fin r2))
    rw [word_x 8 r1 (r2 * 16 + 0) h1 (by omega), word_y 8 r1 r2 0 h2 (by omega),
      reg_fin_eq r1 h1, reg_fin_eq r2 h2]
  | OrReg r1 r2 =>
    obtain ⟨h1, h2⟩ := hwf
    refine ⟨_, rfl, ?_, by simp [toInstr]⟩
    show Chip8.parse_opcode (reg_reg 0x8001 r1 r2) = some (.OrReg (reg_fin r1) (reg_fin r2))
    rw [show (0x8001 : Nat) = 8 * 4096 + 1 from by norm_num,
      reg_reg_word 8 1 r1 r2 (by omega) h1 h2]
    unfold Chip8.parse_opcode
    rw [if_neg (by omega : ¬(8 * 4096 + r1 * 256 + (r2 * 16 + 1) = 0x00E0)),
      if_neg (by omega : ¬(8 * 4096 + r1 * 256 + (r2 * 16 + 1) = 0x00EE)),
      word_msn 8 r1 (r2 * 16 + 1) h1 (by omega)]
    show Chip8.parse_opcode_8 (8 * 4096 + r1 * 256 + (r2 * 16 + 1)) = some (.OrReg (reg_fin r1) (reg_fin r2))
    unfold Chip8.parse_opcode_8
    rw [word_low_nibble 8 r1 r2 1 (by omega)]
    show some (Chip8.Instr.OrReg (Chip8.x (8 * 4096 + r1 * 256 + (r2 * 16 + 1)))
        (Chip8.y (8 * 4096 + r1 * 256 + (r2 * 16 + 1)))) = some (.OrReg (reg_fin r1) (reg_fin r2))
    rw [word_x 8 r1 (r2 * 16 + 1) h1 (by omega), word_y 8 r1 r2 1 h2 (by omega),
      reg_fin_eq r1 h1, reg_fin_eq r2 h2]
  | AndReg r1 r2 =>
    obtain ⟨h1, h2⟩ := hwf
    refine ⟨_, rfl, ?_, by simp [toInstr]⟩
    show Chip8.parse_opcode (reg_reg 0x8002 r1 r2) = some (.AndReg (reg_fin r1) (reg_fin r2))
    rw [show (0x8002 : Nat) = 8 * 4096 + 2 from by norm_num,
      reg_reg_word 8 2 r1 r2 (by omega) h1 h2]
    unfold Chip8.parse_opcode
    rw [if_neg (by omega : ¬(8 * 4096 + r1 * 256 + (r2 * 16 + 2) = 0x00E0)),
      if_neg (by omega : ¬(8 * 4096 + r1 * 256 + (r2 * 16 + 2) = 0x00EE)),
      word_msn 8 r1 (r2 * 16 + 2) h1 (by omega)]
    show Chip8.parse_opcode_8 (8 * 4096 + r1 * 256 + (r2 * 16 + 2)) = some (.AndReg (reg_fin r1) (reg_fin r2))
    unfold Chip8.parse_opcode_8
    rw [word_low_nibble 8 r1 r2 2 (by omega)]
    show some (Chip8.Instr.AndReg (Chip8.x (8 * 4096 + r1 * 256 + (r2 * 16 + 2)))
        (Chip8.y (8 * 4096 + r1 * 256 + (r2 * 16 + 2)))) = some (.AndReg (reg_fin r1) (reg_fin r2))
    rw [word_x 8 r1 (r2 * 16 + 2) h1 (by omega), word_y 8 r1 r2 2 h2 (by omega),
      reg_fin_eq r1 h1, reg_fin_eq r2 h2]
  | XorReg r1 r2 =>
    obtain ⟨h1, h2⟩ := hwf
    refine ⟨_, rfl, ?_, by simp [toInstr]⟩
    show Chip8.parse_opcode (reg_reg 0x8003 r1 r2) = some (.XorReg (reg_fin r1) (reg_fin r2))
    rw [show (0x8003 : Nat) = 8 * 4096 + 3 from by norm_num,
      reg_reg_word 8 3 r1 r2 (by omega) h1 h2]
    unfold Chip8.parse_opcode
    rw [if_neg (by omega : ¬(8 * 4096 + r1 * 256 + (r2 * 16 + 3) = 0x00E0)),
      if_neg (by omega : ¬(8 * 4096 + r1 * 256 + (r2 * 16 + 3) = 0x00EE)),
      word_msn 8 r1 (r2 * 16 + 3) h1 (by omega)]
    show Chip8.parse_opcode_8 (8 * 4096 + r1 * 256 + (r2 * 16 + 3)) = some (.XorReg (reg_fin r1) (reg_fin r2))
    unfold Chip8.parse_opcode_8
    rw [word_low_nibble 8 r1 r2 3 (by omega)]
    show some (Chip8.Instr.XorReg (Chip8.x (8 * 4096 + r1 * 256 + (r2 * 16 + 3)))
        (Chip8.y (8 * 4096 + r1 * 256 + (r2 * 16 + 3)))) = some (.XorReg (reg_fin r1) (reg_fin r2))
    rw [word_x 8 r1 (r2 * 16 + 3) h1 (by omega), word_y 8 r1 r2 3 h2 (by omega),
      reg_fin_eq r1 h1, reg_fin_eq r2 h2]
  | AddReg r1 r2 =>
    obtain ⟨h1, h2⟩ := hwf
    refine ⟨_, rfl, ?_, by simp [toInstr]⟩
    show Chip8.parse_opcode (reg_reg 0x8004 r1 r2) = some (.AddReg (reg_fin r1) (reg_fin r2))
    rw [show (0x8004 : Nat) = 8 * 4096 + 4 from by norm_num,
      reg_reg_word 8 4 r1 r2 (by omega) h1 h2]
    unfold Chip8.parse_opcode
    rw [if_neg (by omega : ¬(8 * 4096 + r1 * 256 + (r2 * 16 + 4) = 0x00E0)),
      if_neg (by omega : ¬(8 * 4096 + r1 * 256 + (r2 * 16 + 4) = 0x00EE)),
      word_msn 8 r1 (r2 * 16 + 4) h1 (by omega)]
    show Chip8.parse_opcode_8 (8 * 4096 + r1 * 256 + (r2 * 16 + 4)) = some (.AddReg (reg_fin r1) (reg_fin r2))
    unfold Chip8.parse_opcode_8
    rw [word_low_nibble 8 r1 r2 4 (by omega)]
    show some (Chip8.Instr.AddReg (Chip8.x (8 * 4096 + r1 * 256 + (r2 * 16 + 4)))
        (Chip8.y (8 * 4096 + r1 * 256 + (r2 * 16 + 4)))) = some (.AddReg (reg_fin r1) (reg_fin r2))
    rw [word_x 8 r1 (r2 * 16 + 4) h1 (by omega), word_y 8 r1 r2 4 h2 (by omega),
      reg_fin_eq r1 h1, reg_fin_eq r2 h2]
  | SubReg r1 r2 =>
    obtain ⟨h1, h2⟩ := hwf
    refine ⟨_, rfl, ?_, by simp [toInstr]⟩
    show Chip8.parse_opcode (reg_reg 0x8005 r1 r2) = some (.SubReg (reg_fin r1) (reg_fin r2))
    rw [show (0x8005 : Nat) = 8 * 4096 + 5 from by norm_num,
      reg_reg_word 8 5 r1 r2 (by omega) h1 h2]
    unfold Chip8.parse_opcode
    rw [if_neg (by omega : ¬(8 * 4096 + r1 * 256 + (r2 * 16 + 5) = 0x00E0)),
      if_neg (by omega : ¬(8 * 4096 + r1 * 256 + (r2 * 16 + 5) = 0x00EE)),
      word_msn 8 r1 (r2 * 16 + 5) h1 (by omega)]
    show Chip8.parse_opcode_8 (8 * 4096 + r1 * 256 + (r2 * 16 + 5)) = some (.SubReg (reg_fin r1) (reg_fin r2))
    unfold Chip8.parse_opcode_8
    rw [word_low_nibble 8 r1 r2 5 (by omega)]
    show some (Chip8.Instr.SubReg (Chip8.x (8 * 4096 + r1 * 256 + (r2 * 16 + 5)))
        (Chip8.y (8 * 4096 + r1 * 256 + (r2 * 16 + 5)))) = some (.SubReg (reg_fin r1) (reg_fin r2))
    rw [word_x 8 r1 (r2 * 16 + 5) h1 (by omega), word_y 8 r1 r2 5 h2 (by omega),
      reg_fin_eq r1 h1, reg_fin_eq r2 h2]
  | ShiftRight r1 r2 =>
    obtain ⟨h1, h2⟩ := hwf
    refine ⟨_, rfl, ?_, by simp [toInstr]⟩
    show Chip8.parse_opcode (reg_reg 0x8006 r1 r2) = some (.ShiftRight (reg_fin r1) (reg_fin r2))
    rw [show (0x8006 : Nat) = 8 * 4096 + 6 from by norm_num,
      reg_reg_word 8 6 r1 r2 (by omega) h1 h2]
    unfold Chip8.parse_opcode
    rw [if_neg (by omega : ¬(8 * 4096 + r1 * 256 + (r2 * 16 + 6) = 0x00E0)),
      if_neg (by omega : ¬(8 * 4096 + r1 * 256 + (r2 * 16 + 6) = 0x00EE)),
      word_msn 8 r1 (r2 * 16 + 6) h1 (by omega)]
    show Chip8.parse_opcode_8 (8 * 4096 + r1 * 256 + (r2 * 16 + 6)) = some (.ShiftRight (reg_fin r1) (reg_fin r2))
    unfold Chip8.parse_opcode_8
    rw [word_low_nibble 8 r1 r2 6 (by omega)]
    show some (Chip8.Instr.ShiftRight (Chip8.x (8 * 4096 + r1 * 256 + (r2 * 16 + 6)))
        (Chip8.y (8 * 4096 + r1 * 256 + (r2 * 16 + 6)))) = some (.ShiftRight (reg_fin r1) (reg_fin r2))
    rw [word_x 8 r1 (r2 * 16 + 6) h1 (by omega), word_y 8 r1 r2 6 h2 (by omega),
      reg_fin_eq r1 h1, reg_fin_eq r2 h2]
  | SubN r1 r2 =>
    obtain ⟨h1, h2⟩ := hwf
    refine ⟨_, rfl, ?_, by simp [toInstr]⟩
    show Chip8.parse_opcode (reg_reg 0x8007 r1 r2) = some (.SubN (reg_fin r1) (reg_fin r2))
    rw [show (0x8007 : Nat) = 8 * 4096 + 7 from by norm_num,
      reg_reg_word 8 7 r1 r2 (by omega) h1 h2]
    unfold Chip8.parse_opcode
    rw [if_neg (by omega : ¬(8 * 4096 + r1 * 256 + (r2 * 16 + 7) = 0x00E0)),
      if_neg (by omega : ¬(8 * 4096 + r1 * 256 + (r2 * 16 + 7) = 0x00EE)),
      word_msn 8 r1 (r2 * 16 + 7) h1 (by omega)]
    show Chip8.parse_opcode_8 (8 * 4096 + r1 * 256 + (r2 * 16 + 7)) = some (.SubN (reg_fin r1) (reg_fin r2))
    unfold Chip8.parse_opcode_8
    rw [word_low_nibble 8 r1 r2 7 (by omega)]
    show some (Chip8.Instr.SubN (Chip8.x (8 * 4096 + r1 * 256 + (r2 * 16 + 7)))
        (Chip8.y (8 * 4096 + r1 * 256 + (r2 * 16 + 7)))) = some (.SubN (reg_fin r1) (reg_fin r2))
    rw [word_x 8 r1 (r2 * 16 + 7) h1 (by omega), word_y 8 r1 r2 7 h2 (by omega),
      reg_fin_eq r1 h1, reg_fin_eq r2 h2]
  | ShiftLeft r1 r2 =>
    obtain ⟨h1, h2⟩ := hwf
    refine ⟨_, rfl, ?_, by simp [toInstr]⟩
    show Chip8.parse_opcode (reg_reg 0x800E r1 r2) = some (.ShiftLeft (reg_fin r1) (reg_fin r2))
    rw [show (0x800E : Nat) = 8 * 4096 + 14 from by norm_num,
      reg_reg_word 8 14 r1 r2 (by omega) h1 h2]
    unfold Chip8.parse_opcode
    rw [if_neg (by omega : ¬(8 * 4096 + r1 * 256 + (r2 * 16 + 14) = 0x00E0)),
      if_neg (by omega : ¬(8 * 4096 + r1 * 256 + (r2 * 16 + 14) = 0x00EE)),
      word_msn 8 r1 (r2 * 16 + 14) h1 (by omega)]
    show Chip8.parse_opcode_8 (8 * 4096 + r1 * 256 + (r2 * 16 + 14)) = some (.ShiftLeft (reg_fin r1) (reg_fin r2))
    unfold Chip8.parse_opcode_8
    rw [word_low_nibble 8 r1 r2 14 (by omega)]
    show some (Chip8.Instr.ShiftLeft (Chip8.x (8 * 4096 + r1 * 256 + (r2 * 16 + 14)))
        (Chip8.y (8 * 4096 + r1 * 256 + (r2 * 16 + 14)))) = some (.ShiftLeft (reg_fin r1) (reg_fin r2))
    rw [word_x 8 r1 (r2 * 16 + 14) h1 (by omega), word_y 8 r1 r2 14 h2 (by omega),
      reg_fin_eq r1 h1, reg_fin_eq r2 h2]
  | SkipNotEqReg r1 r2 =>
    obtain ⟨h1, h2⟩ := hwf
    refine ⟨_, rfl, ?_, by simp [toInstr]⟩
    show Chip8.parse_opcode (reg_reg 0x9000 r1 r2) = some (.SkipNotEqReg (reg_fin r1) (reg_fin r2))
    rw [show (0x9000 : Nat) = 9 * 4096 + 0 from by norm_num,
      reg_reg_word 9 0 r1 r2 (by omega) h1 h2]
    unfold Chip8.parse_opcode
    rw [if_neg (by omega : ¬(9 * 4096 + r1 * 256 + (r2 * 16 + 0) = 0x00E0)),
      if_neg (by omega : ¬(9 * 4096 + r1 * 256 + (r2 * 16 + 0) = 0x00EE)),
      word_msn 9 r1 (r2 * 16 + 0) h1 (by omega),
      word_low_nibble 9 r1 r2 0 (by omega)]
    show some (Chip8.Instr.SkipNotEqReg (Chip8.x (9 * 4096 + r1 * 256 + (r2 * 16 + 0)))
        (Chip8.y (9 * 4096 + r1 * 256 + (r2 * 16 + 0)))) = some (.SkipNotEqReg (reg_fin r1) (reg_fin r2))
    rw [word_x 9 r1 (r2 * 16 + 0) h1 (by omega), word_y 9 r1 r2 0 h2 (by omega),
      reg_fin_eq r1 h1, reg_fin_eq r2 h2]
  | LoadI a =>
    cases a with
    | Imm v =>
      have hv : v ≤ 0xFFF := hwf
      refine ⟨_, rfl, ?_, by simp [toInstr]⟩
      show Chip8.parse_opcode (0xA000 ||| (v &&& 0xFFF)) = some (.LoadI v)
      have hand : v &&& 0xFFF = v := by
        rw [show (0xFFF : Nat) = 2 ^ 12 - 1 from by norm_num, Nat.and_pow_two_sub_one_eq_mod,
          show (2 : Nat) ^ 12 = 4096 from by norm_num]
        omega
      rw [hand, show (0xA000 : Nat) = 2 ^ 12 * 10 from by norm_num,
        or_eq_add_of_lt 12 10 v (by omega)]
      have hmsn : ((2 : Nat) ^ 12 * 10 + v) >>> 12 = 10 := by
        rw [Nat.shiftRight_eq_div_pow, show (2 : Nat) ^ 12 = 4096 from by norm_num]
        omega
      have hnnn : Chip8.nnn (2 ^ 12 * 10 + v) = v := by
        show (2 ^ 12 * 10 + v) &&& 0xFFF = v
        rw [show (0xFFF : Nat) = 2 ^ 12 - 1 from by norm_num, Nat.and_pow_two_sub_one_eq_mod,
          show (2 : Nat) ^ 12 = 4096 from by norm_num]
        omega
      unfold Chip8.parse_opcode
      rw [if_neg (by omega : ¬((2 : Nat) ^ 12 * 10 + v = 0x00E0)),
        if_neg (by omega : ¬((2 : Nat) ^ 12 * 10 + v = 0x00EE)), hmsn]
      show some (Chip8.Instr.LoadI (Chip8.nnn (2 ^ 12 * 10 + v))) = some (.LoadI v)
      rw [hnnn]
    | LabelRef l => exact hwf.elim
  | JumpV0 a =>
    cases a with
    | Imm v =>
      have hv : v ≤ 0xFFF := hwf
      refine ⟨_, rfl, ?_, by simp [toInstr]⟩
      show Chip8.parse_opcode (0xB000 ||| (v &&& 0xFFF)) = some (.JumpV0 v)
      have hand : v &&& 0xFFF = v := by
        rw [show (0xFFF : Nat) = 2 ^ 12 - 1 from by norm_num, Nat.and_pow_two_sub_one_eq_mod,
          show (2 : Nat) ^ 12 = 4096 from by norm_num]
        omega
      rw [hand, show (0xB000 : Nat) = 2 ^ 12 * 11 from by norm_num,
        or_eq_add_of_lt 12 11 v (by omega)]
      have hmsn : ((2 : Nat) ^ 12 * 11 + v) >>> 12 = 11 := by
        rw [Nat.shiftRight_eq_div_pow, show (2 : Nat) ^ 12 = 4096 from by norm_num]
        omega
      have hnnn : Chip8.nnn (2 ^ 12 * 11 + v) = v := by
        show (2 ^ 12 * 11 + v) &&& 0xFFF = v
        rw [show (0xFFF : Nat) = 2 ^ 12 - 1 from by norm_num, Nat.and_pow_two_sub_one_eq_mod,
          show (2 : Nat) ^ 12 = 4096 from by norm_num]
        omega
      unfold Chip8.parse_opcode
      rw [if_neg (by omega : ¬((2 : Nat) ^ 12 * 11 + v = 0x00E0)),
        if_neg (by omega : ¬((2 : Nat) ^ 12 * 11 + v = 0x00EE)), hmsn]
      show some (Chip8.Instr.JumpV0 (Chip8.nnn (2 ^ 12 * 11 + v))) = some (.JumpV0 v)
      rw [hnnn]
    | LabelRef l => exact hwf.elim
  | Random r b =>
    obtain ⟨hr, hb⟩ := hwf
    refine ⟨_, rfl, ?_, by simp [toInstr]⟩
    show Chip8.parse_opcode (reg_imm 0xC000 r b) = some (.Random (reg_fin r) b)
    rw [show (0xC000 : Nat) = 12 * 4096 from by norm_num, reg_imm_word 12 r b hr hb]
    unfold Chip8.parse_opcode
    rw [if_neg (by omega : ¬(12 * 4096 + r * 256 + b = 0x00E0)),
      if_neg (by omega : ¬(12 * 4096 + r * 256 + b = 0x00EE)),
      word_msn 12 r b hr hb]
    show some (Chip8.Instr.Random (Chip8.x (12 * 4096 + r * 256 + b))
        (Chip8.kk (12 * 4096 + r * 256 + b))) = some (.Random (reg_fin r) b)
    rw [word_x 12 r b hr hb, word_kk 12 r b hb, reg_fin_eq r hr]
  | Draw r1 r2 nb =>
    obtain ⟨h1, h2, hn⟩ := hwf
    refine ⟨_, rfl, ?_, by simp [toInstr]⟩
    show Chip8.parse_opcode (reg_reg_nib 0xD000 r1 r2 nb)
      = some (.Draw (reg_fin r1) (reg_fin r2) nb)
    rw [show (0xD000 : Nat) = 13 * 4096 from by norm_num,
      reg_reg_nib_word 13 r1 r2 nb h1 h2 hn]
    unfold Chip8.parse_opcode
    rw [if_neg (by omega : ¬(13 * 4096 + r1 * 256 + (r2 * 16 + nb) = 0x00E0)),
      if_neg (by omega : ¬(13 * 4096 + r1 * 256 + (r2 * 16 + nb) = 0x00EE)),
      word_msn 13 r1 (r2 * 16 + nb) h1 (by omega)]
    show some (Chip8.Instr.Draw (Chip8.x (13 * 4096 + r1 * 256 + (r2 * 16 + nb)))
        (Chip8.y (13 * 4096 + r1 * 256 + (r2 * 16 + nb))) (Chip8.n (13 * 4096 + r1 * 256 + (r2 * 16 + nb))))
      = some (.Draw (reg_fin r1) (reg_fin r2) nb)
    rw [word_x 13 r1 (r2 * 16 + nb) h1 (by omega), word_y 13 r1 r2 nb h2 hn,
      word_n 13 r1 r2 nb hn, reg_fin_eq r1 h1, reg_fin_eq r2 h2]
  | SkipKeyPressed r =>
    have hr : r < 16 := hwf
    refine ⟨_, rfl, ?_, by simp [toInstr]⟩
    show Chip8.parse_opcode (reg 0xE09E r) = some (.SkipKeyPressed (reg_fin r))
    rw [show (0xE09E : Nat) = 14 * 4096 + 0x9E from by norm_num,
      reg_word 14 0x9E r (by omega) hr]
    unfold Chip8.parse_opcode
    rw [if_neg (by omega : ¬(14 * 4096 + r * 256 + 0x9E = 0x00E0)),
      if_neg (by omega : ¬(14 * 4096 + r * 256 + 0x9E = 0x00EE)),
      word_msn 14 r 0x9E hr (by omega)]
    show Chip8.parse_opcode_e (14 * 4096 + r * 256 + 0x9E) = some (.SkipKeyPressed (reg_fin r))
    unfold Chip8.parse_opcode_e
    rw [word_low_byte 14 r 0x9E (by omega)]
    show some (Chip8.Instr.SkipKeyPressed (Chip8.x (14 * 4096 + r * 256 + 0x9E))) = some (.SkipKeyPressed (reg_fin r))
    rw [word_x 14 r 0x9E hr (by omega), reg_fin_eq r hr]
  | SkipKeyNotPressed r =>
    have hr : r < 16 := hwf
    refine ⟨_, rfl, ?_, by simp [toInstr]⟩
    show Chip8.parse_opcode (reg 0xE0A1 r) = some (.SkipKeyNotPressed (reg_fin r))
    rw [show (0xE0A1 : Nat) = 14 * 4096 + 0xA1 from by norm_num,
      reg_word 14 0xA1 r (by omega) hr]
    unfold Chip8.parse_opcode
    rw [if_neg (by omega : ¬(14 * 4096 + r * 256 + 0xA1 = 0x00E0)),
      if_neg (by omega : ¬(14 * 4096 + r * 256 + 0xA1 = 0x00EE)),
      word_msn 14 r 0xA1 hr (by omega)]
    show Chip8.parse_opcode_e (14 * 4096 + r * 256 + 0xA1) = some (.SkipKeyNotPressed (reg_fin r))
    unfold Chip8.parse_opcode_e
    rw [word_low_byte 14 r 0xA1 (by omega)]
    show some (Chip8.Instr.SkipKeyNotPressed (Chip8.x (14 * 4096 + r * 256 + 0xA1))) = some (.SkipKeyNotPressed (reg_fin r))
    rw [word_x 14 r 0xA1 hr (by omega), reg_fin_eq r hr]
  | LoadDelayTimer r =>
    have hr : r < 16 := hwf
    refine ⟨_, rfl, ?_, by simp [toInstr]⟩
    show Chip8.parse_opcode (reg 0xF007 r) = some (.LoadDelayTimer (reg_fin r))
    rw [show (0xF007 : Nat) = 15 * 4096 + 0x07 from by norm_num,
      reg_word 15 0x07 r (by omega) hr]
    unfold Chip8.parse_opcode
    rw [if_neg (by omega : ¬(15 * 4096 + r * 256 + 0x07 = 0x00E0)),
      if_neg (by omega : ¬(15 * 4096 + r * 256 + 0x07 = 0x00EE)),
      word_msn 15 r 0x07 hr (by omega)]
    show Chip8.parse_opcode_f (15 * 4096 + r * 256 + 0x07) = some (.LoadDelayTimer (reg_fin r))
    unfold Chip8.parse_opcode_f
    rw [word_low_byte 15 r 0x07 (by omega)]
    show some (Chip8.Instr.LoadDelayTimer (Chip8.x (15 * 4096 + r * 256 + 0x07))) = some (.LoadDelayTimer (reg_fin r))
    rw [word_x 15 r 0x07 hr (by omega), reg_fin_eq r hr]
  | WaitKeyPress r =>
    have hr : r < 16 := hwf
    refine ⟨_, rfl, ?_, by simp [toInstr]⟩
    show Chip8.parse_opcode (reg 0xF00A r) = some (.WaitKeyPress (reg_fin r))
    rw [show (0xF00A : Nat) = 15 * 4096 + 0x0A from by norm_num,
      reg_word 15 0x0A r (by omega) hr]
    unfold Chip8.parse_opcode
    rw [if_neg (by omega : ¬(15 * 4096 + r * 256 + 0x0A = 0x00E0)),
      if_neg (by omega : ¬(15 * 4096 + r * 256 + 0x0A = 0x00EE)),
      word_msn 15 r 0x0A hr (by omega)]
    show Chip8.parse_opcode_f (15 * 4096 + r * 256 + 0x0A) = some (.WaitKeyPress (reg_fin r))
    unfold Chip8.parse_opcode_f
    rw [word_low_byte 15 r 0x0A (by omega)]
    show some (Chip8.Instr.WaitKeyPress (Chip8.x (15 * 4096 + r * 256 + 0x0A))) = some (.WaitKeyPress (reg_fin r))
    rw [word_x 15 r 0x0A hr (by omega), reg_fin_eq r hr]
  | SetDelayTimer r =>
    have hr : r < 16 := hwf
    refine ⟨_, rfl, ?_, by simp [toInstr]⟩
    show Chip8.parse_opcode (reg 0xF015 r) = some (.SetDelayTimer (reg_fin r))
    rw [show (0xF015 : Nat) = 15 * 4096 + 0x15 from by norm_num,
      reg_word 15 0x15 r (by omega) hr]
    unfold Chip8.parse_opcode
    rw [if_neg (by omega : ¬(15 * 4096 + r * 256 + 0x15 = 0x00E0)),
      if_neg (by omega : ¬(15 * 4096 + r * 256 + 0x15 = 0x00EE)),
      word_msn 15 r 0x15 hr (by omega)]
    show Chip8.parse_opcode_f (15 * 4096 + r * 256 + 0x15) = some (.SetDelayTimer (reg_fin r))
    unfold Chip8.parse_opcode_f
    rw [word_low_byte 15 r 0x15 (by omega)]
    show some (Chip8.Instr.SetDelayTimer (Chip8.x (15 * 4096 + r * 256 + 0x15))) = some (.SetDelayTimer (reg_fin r))
    rw [word_x 15 r 0x15 hr (by omega), reg_fin_eq r hr]
  | SetSoundTimer r =>
    have hr : r < 16 := hwf
    refine ⟨_, rfl, ?_, by simp [toInstr]⟩
    show Chip8.parse_opcode (reg 0xF018 r) = some (.SetSoundTimer (reg_fin r))
    rw [show (0xF018 : Nat) = 15 * 4096 + 0x18 from by norm_num,
      reg_word 15 0x18 r (by omega) hr]
    unfold Chip8.parse_opcode
    rw [if_neg (by omega : ¬(15 * 4096 + r * 256 + 0x18 = 0x00E0)),
      if_neg (by omega : ¬(15 * 4096 + r * 256 + 0x18 = 0x00EE)),
      word_msn 15 r 0x18 hr (by omega)]
    show Chip8.parse_opcode_f (15 * 4096 + r * 256 + 0x18) = some (.SetSoundTimer (reg_fin r))
    unfold Chip8.parse_opcode_f
    rw [word_low_byte 15 r 0x18 (by omega)]
    show some (Chip8.Instr.SetSoundTimer (Chip8.x (15 * 4096 + r * 256 + 0x18))) = some (.SetSoundTimer (reg_fin r))
    rw [word_x 15 r 0x18 hr (by omega), reg_fin_eq r hr]
  | AddI r =>
    have hr : r < 16 := hwf
    refine ⟨_, rfl, ?_, by simp [toInstr]⟩
    show Chip8.parse_opcode (reg 0xF01E r) = some (.AddI (reg_fin r))
    rw [show (0xF01E : Nat) = 15 * 4096 + 0x1E from by norm_num,
      reg_word 15 0x1E r (by omega) hr]
    unfold Chip8.parse_opcode
    rw [if_neg (by omega : ¬(15 * 4096 + r * 256 + 0x1E = 0x00E0)),
      if_neg (by omega : ¬(15 * 4096 + r * 256 + 0x1E = 0x00EE)),
      word_msn 15 r 0x1E hr (by omega)]
    show Chip8.parse_opcode_f (15 * 4096 + r * 256 + 0x1E) = some (.AddI (reg_fin r))
    unfold Chip8.parse_opcode_f
    rw [word_low_byte 15 r 0x1E (by omega)]
    show some (Chip8.Instr.AddI (Chip8.x (15 * 4096 + r * 256 + 0x1E))) = some (.AddI (reg_fin r))
    rw [word_x 15 r 0x1E hr (by omega), reg_fin_eq r hr]
  | LoadSprite r =>
    have hr : r < 16 := hwf
    refine ⟨_, rfl, ?_, by simp [toInstr]⟩
    show Chip8.parse_opcode (reg 0xF029 r) = some (.LoadSprite (reg_fin r))
    rw [show (0xF029 : Nat) = 15 * 4096 + 0x29 from by norm_num,
      reg_word 15 0x29 r (by omega) hr]
    unfold Chip8.parse_opcode
    rw [if_neg (by omega : ¬(15 * 4096 + r * 256 + 0x29 = 0x00E0)),
      if_neg (by omega : ¬(15 * 4096 + r * 256 + 0x29 = 0x00EE)),
      word_msn 15 r 0x29 hr (by omega)]
    show Chip8.parse_opcode_f (15 * 4096 + r * 256 + 0x29) = some (.LoadSprite (reg_fin r))
    unfold Chip8.parse_opcode_f
    rw [word_low_byte 15 r 0x29 (by omega)]
    show some (Chip8.Instr.LoadSprite (Chip8.x (15 * 4096 + r * 256 + 0x29))) = some (.LoadSprite (reg_fin r))
    rw [word_x 15 r 0x29 hr (by omega), reg_fin_eq r hr]
  | LoadBCD r =>
    have hr : r < 16 := hwf
    refine ⟨_, rfl, ?_, by simp [toInstr]⟩
    show Chip8.parse_opcode (reg 0xF033 r) = some (.LoadBCD (reg_fin r))
    rw [show (0xF033 : Nat) = 15 * 4096 + 0x33 from by norm_num,
      reg_word 15 0x33 r (by omega) hr]
    unfold Chip8.parse_opcode
    rw [if_neg (by omega : ¬(15 * 4096 + r * 256 + 0x33 = 0x00E0)),
      if_neg (by omega : ¬(15 * 4096 + r * 256 + 0x33 = 0x00EE)),
      word_msn 15 r 0x33 hr (by omega)]
    show Chip8.parse_opcode_f (15 * 4096 + r * 256 + 0x33) = some (.LoadBCD (reg_fin r))
    unfold Chip8.parse_opcode_f
    rw [word_low_byte 15 r 0x33 (by omega)]
    show some (Chip8.Instr.LoadBCD (Chip8.x (15 * 4096 + r * 256 + 0x33))) = some (.LoadBCD (reg_fin r))
    rw [word_x 15 r 0x33 hr (by omega), reg_fin_eq r hr]
  | SaveRegs r =>
    have hr : r < 16 := hwf
    refine ⟨_, rfl, ?_, by simp [toInstr]⟩
    show Chip8.parse_opcode (reg 0xF055 r) = some (.SaveRegs (reg_fin r))
    rw [show (0xF055 : Nat) = 15 * 4096 + 0x55 from by norm_num,
      reg_word 15 0x55 r (by omega) hr]
    unfold Chip8.parse_opcode
    rw [if_neg (by omega : ¬(15 * 4096 + r * 256 + 0x55 = 0x00E0)),
      if_neg (by omega : ¬(15 * 4096 + r * 256 + 0x55 = 0x00EE)),
      word_msn 15 r 0x55 hr (by omega)]
    show Chip8.parse_opcode_f (15 * 4096 + r * 256 + 0x55) = some (.SaveRegs (reg_fin r))
    unfold Chip8.parse_opcode_f
    rw [word_low_byte 15 r 0x55 (by omega)]
    show some (Chip8.Instr.SaveRegs (Chip8.x (15 * 4096 + r * 256 + 0x55))) = some (.SaveRegs (reg_fin r))
    rw [word_x 15 r 0x55 hr (by omega), reg_fin_eq r hr]
  | LoadRegs r =>
    have hr : r < 16 := hwf
    refine ⟨_, rfl, ?_, by simp [toInstr]⟩
    show Chip8.parse_opcode (reg 0xF065 r) = some (.LoadRegs (reg_fin r))
    rw [show (0xF065 : Nat) = 15 * 4096 + 0x65 from by norm_num,
      reg_word 15 0x65 r (by omega) hr]
    unfold Chip8.parse_opcode
    rw [if_neg (by omega : ¬(15 * 4096 + r * 256 + 0x65 = 0x00E0)),
      if_neg (by omega : ¬(15 * 4096 + r * 256 + 0x65 = 0x00EE)),
      word_msn 15 r 0x65 hr (by omega)]
    show Chip8.parse_opcode_f (15 * 4096 + r * 256 + 0x65) = some (.LoadRegs (reg_fin r))
    unfold Chip8.parse_opcode_f
    rw [word_low_byte 15 r 0x65 (by omega)]
    show some (Chip8.Instr.LoadRegs (Chip8.x (15 * 4096 + r * 256 + 0x65))) = some (.LoadRegs (reg_fin r))
    rw [word_x 15 r 0x65 hr (by omega), reg_fin_eq r hr]

/-- Witness for C6: `LD V0, 0x2A` assembles to 0x602A and decodes back. -/
theorem encode_decode_roundtrip_witness :
    ∃ w, opcode (.LoadImm 0 0x2A) [] = .ok w ∧
      Chip8.parse_opcode w = toInstr (.LoadImm 0 0x2A) ∧
      toInstr (.LoadImm 0 0x2A) ≠ none :=
  encode_decode_roundtrip (.LoadImm 0 0x2A) (by exact ⟨by omega, by omega⟩)

end C8asm
